import Mathlib

/-!
# FreeCAD: sketch merge / mirror index remapping and the document-recovery dialog

A shallow embedding of

* `CmdSketcherMergeSketches::activated`, `CmdSketcherMirrorSketch::activated` and
  `CmdSketcherMapSketch::activated` (`src/Mod/Sketcher/Gui/Command.cpp`), and
* `DocumentRecovery` (`src/Gui/DocumentRecovery.cpp`).

C++ `int` values are embedded as `Int`: every value the commands compute is an
element count or an index shifted by an element count, so no wrap-around is
modelled.  Reading a `std::vector` outside its bounds is undefined behaviour
in C++; the embedding reports it as `Fault.outOfRange`.
-/

set_option autoImplicit false

deriving instance DecidableEq for Except

namespace Sketcher

/-- Ways in which a command ends without producing its sketch. -/
inductive Fault where
  /-- the "Wrong selection" message box was shown and the command returned -/
  | wrongSelection
  /-- the mirror dialog was not accepted and the command returned -/
  | dialogRejected
  /-- a vector was read outside its bounds (undefined behaviour in C++) -/
  | outOfRange
deriving DecidableEq, Repr

/-- Sketcher::Constraint (declared in `Constraint.h`).  The commands read and
write the members `First`, `Second` and `Third`; every other member (type,
value, point positions, name) is carried along untouched in `Rest`, whose
type is a parameter. -/
structure Constraint (P : Type) where
  First : Int
  Second : Int
  Third : Int
  Rest : P
deriving DecidableEq, Repr

/-- Sketcher::SketchObject, reduced to the two properties the commands use:
the internal geometry list (`getInternalGeometry()`) and the constraint list
(`Constraints.getValues()`).  `G` is the type of geometry elements. -/
structure SketchObject (G P : Type) where
  Geometry : List G
  Constraints : List (Constraint P)
deriving DecidableEq, Repr

/-- Modelled from the spec: `SketchObject::SketchObject()` (SketchObject.cpp is
not part of the sources); a freshly created sketch has no geometry and no
constraint. -/
def SketchObject.new {G P : Type} : SketchObject G P := ⟨[], []⟩

/-- Modelled from the spec: `SketchObject::addGeometry(const std::vector<Part::Geometry*>&)`
(SketchObject.cpp is not part of the sources).  It appends the given list and
returns the index of the last element after appending. -/
def SketchObject.addGeometry {G P : Type} (s : SketchObject G P) (geoList : List G) :
    SketchObject G P × Int :=
  ({ s with Geometry := s.Geometry ++ geoList },
   ((s.Geometry ++ geoList).length : Int) - 1)

/-- Modelled from the spec: `SketchObject::addConstraints(const std::vector<Constraint*>&)`
(SketchObject.cpp is not part of the sources).  It appends the given list and
returns the index of the last element after appending. -/
def SketchObject.addConstraints {G P : Type} (s : SketchObject G P)
    (constraintList : List (Constraint P)) : SketchObject G P × Int :=
  ({ s with Constraints := s.Constraints ++ constraintList },
   ((s.Constraints ++ constraintList).length : Int) - 1)

/-! ## CmdSketcherMergeSketches::activated (Command.cpp, lines 634-679)

`GeoUndef` stands for `Sketcher::Constraint::GeoUndef`, a constant defined
outside the sources; it is a parameter of the embedding. -/

/-- One of the three statements of lines 666-671, for one member `x`:
`if (x != GeoUndef || x == -1 || x == -2) x += baseGeometry;`. -/
def mergeField (GeoUndef baseGeometry x : Int) : Int :=
  if x ≠ GeoUndef ∨ x = -1 ∨ x = -2 then x + baseGeometry else x

/-- The body of the inner loop (lines 666-671) applied to one constraint. -/
def mergeConstraint {P : Type} (GeoUndef baseGeometry : Int) (c : Constraint P) :
    Constraint P :=
  { c with
    First := mergeField GeoUndef baseGeometry c.First
    Second := mergeField GeoUndef baseGeometry c.Second
    Third := mergeField GeoUndef baseGeometry c.Third }

/-- One iteration of the inner loop (lines 664-671): the constraint at
position `i + baseConstraints` of the merged sketch is updated in place. -/
def mergeLoopBody {P : Type} (GeoUndef baseGeometry baseConstraints : Int)
    (vals : List (Constraint P)) (i : Int) : Except Fault (List (Constraint P)) :=
  if 0 ≤ i + baseConstraints ∧ (i + baseConstraints).toNat < vals.length then
    .ok (vals.modify (mergeConstraint GeoUndef baseGeometry) (i + baseConstraints).toNat)
  else
    .error .outOfRange

/-- The inner loop `for (int i = 0; i <= addedConstraints - baseConstraints; i++)`
(line 663), as the number of iterations still to run and the current `i`. -/
def mergeLoop {P : Type} (GeoUndef baseGeometry baseConstraints : Int) :
    Nat → Int → List (Constraint P) → Except Fault (List (Constraint P))
  | 0, _, vals => .ok vals
  | n + 1, i, vals =>
    match mergeLoopBody GeoUndef baseGeometry baseConstraints vals i with
    | .error e => .error e
    | .ok vals1 => mergeLoop GeoUndef baseGeometry baseConstraints n (i + 1) vals1

/-- The outer loop over the selection (lines 657-676), with the loop state
`mergesketch`, `baseGeometry`, `baseConstraints`. -/
def mergeSelection {G P : Type} (GeoUndef : Int) :
    List (SketchObject G P) → SketchObject G P → Int → Int →
      Except Fault (SketchObject G P)
  | [], mergesketch, _, _ => .ok mergesketch
  | Obj :: rest, mergesketch, baseGeometry, baseConstraints =>
    let r1 := mergesketch.addGeometry Obj.Geometry
    let addedGeometries := r1.2
    let r2 := r1.1.addConstraints Obj.Constraints
    let addedConstraints := r2.2
    match mergeLoop GeoUndef baseGeometry baseConstraints
        (addedConstraints - baseConstraints + 1).toNat 0 r2.1.Constraints with
    | .error e => .error e
    | .ok vals =>
      mergeSelection GeoUndef rest { r2.1 with Constraints := vals }
        (addedGeometries + 1) (addedConstraints + 1)

/-- CmdSketcherMergeSketches::activated: the selection is refused when it has
fewer than two sketches (lines 637-642); otherwise a new sketch is created and
the selected sketches are merged into it.  The result is the merged sketch. -/
def CmdSketcherMergeSketches_activated {G P : Type} (GeoUndef : Int)
    (selection : List (SketchObject G P)) : Except Fault (SketchObject G P) :=
  if selection.length < 2 then .error .wrongSelection
  else mergeSelection GeoUndef selection SketchObject.new 0 0

/-- Number of geometry elements of the first `k` selected sketches. -/
def geometriesBefore {G P : Type} (selection : List (SketchObject G P)) (k : Nat) : Nat :=
  ((selection.take k).map (fun s => s.Geometry.length)).sum

/-- Number of constraints of the first `k` selected sketches. -/
def constraintsBefore {G P : Type} (selection : List (SketchObject G P)) (k : Nat) : Nat :=
  ((selection.take k).map (fun s => s.Constraints.length)).sum

/-- The constraint list the merge produces for the sketches `sel`, when the
first of them is merged at geometry offset `base`. -/
def mergedConstraints {G P : Type} (GeoUndef : Int) :
    Int → List (SketchObject G P) → List (Constraint P)
  | _, [] => []
  | base, Obj :: rest =>
    Obj.Constraints.map (mergeConstraint GeoUndef base)
      ++ mergedConstraints GeoUndef (base + Obj.Geometry.length) rest

/-! ## CmdSketcherMirrorSketch::activated (Command.cpp, lines 525-612)

`SketchObject::addSymmetric` is defined outside the sources; it is a
parameter `addSymmetric` of the embedding, mapping the temporary sketch, the
list of geometry ids, the reference geometry id and the reference position
(of a type `Pos` standing for `Sketcher::PointPos`) to the temporary sketch
after the call. -/

/-- One of the three statements of lines 596-601, for one member `x`:
`if (x != GeoUndef || x == -1 || x == -2) x -= (addedGeometries + 1);`. -/
def mirrorField (GeoUndef addedGeometries x : Int) : Int :=
  if x ≠ GeoUndef ∨ x = -1 ∨ x = -2 then x - (addedGeometries + 1) else x

/-- The body of the loop of lines 594-602 applied to one constraint. -/
def mirrorConstraint {P : Type} (GeoUndef addedGeometries : Int) (c : Constraint P) :
    Constraint P :=
  { c with
    First := mirrorField GeoUndef addedGeometries c.First
    Second := mirrorField GeoUndef addedGeometries c.Second
    Third := mirrorField GeoUndef addedGeometries c.Third }

/-- The range constructor `std::vector<T>(v.begin() + k, v.end())` of lines
591-592; a start outside `[begin, end]` is undefined behaviour in C++. -/
def vectorFrom {α : Type} (v : List α) (k : Int) : Except Fault (List α) :=
  if 0 ≤ k ∧ k.toNat ≤ v.length then .ok (v.drop k.toNat) else .error .outOfRange

/-- Lines 581-584: `for (int i = 0; i <= addedGeometries; i++) geoIdList.push_back(i);`. -/
def mirrorGeoIdList (addedGeometries : Int) : List Int :=
  (List.range (addedGeometries + 1).toNat).map (fun i => (i : Int))

/-- Lines 575-589: the temporary sketch receives the geometry and the
constraints of `Obj`, then `addSymmetric` is called on it with the ids
`0 .. addedGeometries`.  The result is the temporary sketch after the call
together with `addedGeometries` and `addedConstraints`. -/
def mirrorTempSketch {G P Pos : Type}
    (addSymmetric : SketchObject G P → List Int → Int → Pos → SketchObject G P)
    (refgeoid : Int) (refposid : Pos) (Obj : SketchObject G P) :
    SketchObject G P × Int × Int :=
  let r1 := (SketchObject.new : SketchObject G P).addGeometry Obj.Geometry
  let addedGeometries := r1.2
  let r2 := r1.1.addConstraints Obj.Constraints
  let addedConstraints := r2.2
  (addSymmetric r2.1 (mirrorGeoIdList addedGeometries) refgeoid refposid,
   addedGeometries, addedConstraints)

/-- Lines 575-607, one iteration of the loop over the selection: the content
of the mirrored sketch created for `Obj`. -/
def mirrorOne {G P Pos : Type}
    (addSymmetric : SketchObject G P → List Int → Int → Pos → SketchObject G P)
    (GeoUndef refgeoid : Int) (refposid : Pos) (Obj : SketchObject G P) :
    Except Fault (SketchObject G P) :=
  let t := mirrorTempSketch addSymmetric refgeoid refposid Obj
  let tempgeo := t.1.Geometry
  let tempconstr := t.1.Constraints
  let addedGeometries := t.2.1
  let addedConstraints := t.2.2
  match vectorFrom tempgeo (addedGeometries + 1),
        vectorFrom tempconstr (addedConstraints + 1) with
  | .ok mirrorgeo, .ok mirrorconstr =>
    let remapped := mirrorconstr.map (mirrorConstraint GeoUndef addedGeometries)
    let mirrorsketch : SketchObject G P := SketchObject.new
    .ok ((mirrorsketch.addGeometry mirrorgeo).1.addConstraints remapped).1
  | _, _ => .error .outOfRange

/-- The loop over the selection (lines 556-608): one mirrored sketch per
selected sketch, in selection order. -/
def mirrorSelection {G P Pos : Type}
    (addSymmetric : SketchObject G P → List Int → Int → Pos → SketchObject G P)
    (GeoUndef refgeoid : Int) (refposid : Pos) :
    List (SketchObject G P) → Except Fault (List (SketchObject G P))
  | [] => .ok []
  | Obj :: rest =>
    match mirrorOne addSymmetric GeoUndef refgeoid refposid Obj with
    | .error e => .error e
    | .ok mirrorsketch =>
      match mirrorSelection addSymmetric GeoUndef refgeoid refposid rest with
      | .error e => .error e
      | .ok others => .ok (mirrorsketch :: others)

/-- CmdSketcherMirrorSketch::activated.  `dialog` is the outcome of the
`SketchMirrorDialog`: `none` when it was not accepted, otherwise the chosen
`RefGeoid` and `RefPosid`.  The result is the list of mirrored sketches. -/
def CmdSketcherMirrorSketch_activated {G P Pos : Type}
    (addSymmetric : SketchObject G P → List Int → Int → Pos → SketchObject G P)
    (GeoUndef : Int) (dialog : Option (Int × Pos)) (selection : List (SketchObject G P)) :
    Except Fault (List (SketchObject G P)) :=
  if selection.length < 1 then .error .wrongSelection
  else match dialog with
    | none => .error .dialogRejected
    | some (refgeoid, refposid) =>
      mirrorSelection addSymmetric GeoUndef refgeoid refposid selection

/-! ## CmdSketcherMapSketch::activated (Command.cpp, lines 351-435)

The texts of the message boxes are given untranslated
(`qApp->translate` is not part of the embedding). -/

/-- App::DocumentObject, as far as the command reads it.  `id` stands for the
address of the object (objects are compared as pointers), `isSketch` for
being of type `Sketcher::SketchObject`, and `outList` for the result of
`getOutList()`, which is defined outside the sources: the objects that this
object links to, given by their `id`. -/
structure DocumentObject where
  id : Nat
  nameInDocument : String
  label : String
  isSketch : Bool
  outList : List Nat
deriving DecidableEq, Repr

/-- The selection matched by the filter
`SELECT Part::Feature SUBELEMENT Face COUNT 1` (`FaceFilter.Result[0][0]`),
with what the command reads from it: the selected object, the names of the
selected sub-elements, whether the sub-shape named first is a null face,
whether its surface is a plane, and `getAsPropertyLinkSubString()`. -/
structure FaceSelection where
  part : DocumentObject
  subNames : List String
  faceIsNull : Bool
  isPlane : Bool
  supportString : String
deriving DecidableEq, Repr

/-- What the command shows or issues. -/
inductive CommandAction where
  /-- `QMessageBox::warning` with the given title and text -/
  | warning (title text : String)
  | openCommand (name : String)
  | doCommand (cmd : String)
deriving DecidableEq, Repr

/-- CmdSketcherMapSketch::activated.  `objects` are the objects of the active
document, `dialog` is the outcome of `QInputDialog::getItem` (`none` when it
was cancelled, otherwise the chosen text) and `faceFilter` is the match of the
face filter, if it matches.  The result lists the message boxes shown and the
commands issued, in order. -/
def CmdSketcherMapSketch_activated (objects : List DocumentObject) (dialog : Option String)
    (faceFilter : Option FaceSelection) : Except Fault (List CommandAction) :=
  let sel := objects.filter (fun o => o.isSketch)
  if sel.isEmpty then
    .ok [.warning "No sketch found" "The document doesn\x27t have a sketch"]
  else
    let items := sel.map (fun o => o.label)
    match dialog with
    | none => .ok []
    | some text =>
      let index := items.indexOf text
      match sel[index]? with
      | none => .error .outOfRange
      | some sketch =>
        let featName := sketch.nameInDocument
        match faceFilter with
        | some result =>
          let part := result.part
          let sub := result.subNames
          if sub.isEmpty then
            .ok [.warning "No sub-elements selected"
              "You have to select a single face as support for a sketch!"]
          else if sub.length > 1 then
            .ok [.warning "Several sub-elements selected"
              "You have to select a single face as support for a sketch!"]
          else
            let input := part.outList
            if sketch.id ∈ input then
              .ok [.warning "Cyclic dependency"
                "You cannot choose a support object depending on the selected sketch!"]
            else if result.faceIsNull then
              .ok [.warning "No support face selected"
                "You have to select a face as support for a sketch!"]
            else if !result.isPlane then
              .ok [.warning "No planar support"
                "You need a planar face as support for a sketch!"]
            else
              .ok [.openCommand "Map a Sketch on Face",
                   .doCommand ("App.activeDocument()." ++ featName ++ ".Support = "
                     ++ result.supportString),
                   .doCommand "App.activeDocument().recompute()",
                   .doCommand ("Gui.activeDocument().setEdit(\x27" ++ featName ++ "\x27)")]
        | none =>
          .ok [.warning "No face selected" "No face was selected to map the sketch to"]

/-- The object with address `a` links to the object with address `b`: `b` is
in the out-list of an object of the document whose address is `a`. -/
def linksTo (objects : List DocumentObject) (a b : Nat) : Prop :=
  ∃ o ∈ objects, o.id = a ∧ b ∈ o.outList

/-- The object with address `a` depends on the object with address `b`,
directly or through a chain of other objects of the document. -/
def dependsOn (objects : List DocumentObject) (a b : Nat) : Prop :=
  Relation.TransGen (linksTo objects) a b

/-! ## Example data -/

/-- A document for the examples: a sketch, a pad made from the sketch, and a
fillet made from the pad. -/
def exampleObjects : List DocumentObject :=
  [⟨0, "Sketch", "Sketch", true, []⟩, ⟨1, "Pad", "Pad", false, [0]⟩,
   ⟨2, "Fillet", "Fillet", false, [1]⟩]

/-- The selection of a planar face of the object `part`. -/
def exampleFace (part : DocumentObject) : FaceSelection :=
  ⟨part, ["Face1"], false, true,
   "(App.activeDocument()." ++ part.nameInDocument ++ ",[\x27Face1\x27])"⟩

/-- An `addSymmetric` for the examples: it appends one geometry element and
one constraint between the last old and the new element. -/
def exampleAddSymmetric (s : SketchObject Nat Nat) (_geoIdList : List Int) (_refgeoid : Int)
    (_refposid : Unit) : SketchObject Nat Nat :=
  ⟨s.Geometry ++ [99],
   s.Constraints ++ [⟨s.Geometry.length, -2000, -2000, 5⟩]⟩

end Sketcher

/-! ## DocumentRecovery (DocumentRecovery.cpp)

The dialog works on the file system and on the application (creating,
restoring and closing documents).  The file system is an explicit state
`FileSys`; what Qt and the application do is collected in an environment
`Env`.  The widgets of the dialog (tree items, button texts, colours) are not
part of the embedding. -/

namespace Gui.Dialog

/-- DocumentRecoveryPrivate::Status (lines 70-76). -/
inductive Status where
  /-- the file is not available -/
  | Unknown
  /-- the file was created but not processed so far -/
  | Created
  /-- the recovery file is older than the actual project file -/
  | Overage
  /-- the file could be recovered -/
  | Success
  /-- the file could not be recovered -/
  | Failure
deriving DecidableEq, Repr

/-- DocumentRecoveryPrivate::Info (lines 77-84). -/
structure Info where
  projectFile : String
  xmlFile : String
  label : String
  fileName : String
  tooltip : String
  status : Status
deriving DecidableEq, Repr

/-- A file: its text and its time of last modification. -/
structure File where
  content : String
  lastModified : Nat
deriving DecidableEq, Repr

/-- The file system: the file found at a path (if any), whether a path can be
opened for reading and for writing, and the time stamp a file written now
receives. -/
structure FileSys where
  file : String → Option File
  readable : String → Bool
  writable : String → Bool
  now : Nat

/-- `QFileInfo::exists()` / `QDir::exists(name)` on an absolute path. -/
def FileSys.fileExists (fs : FileSys) (path : String) : Bool :=
  (fs.file path).isSome

/-- `QFileInfo(path).lastModified()`. -/
def FileSys.lastModified (fs : FileSys) (path : String) : Nat :=
  match fs.file path with
  | some f => f.lastModified
  | none => 0

/-- The part of a `QFileInfo` of a directory that the dialog reads. -/
structure QFileInfo where
  absoluteFilePath : String
  fileName : String
deriving DecidableEq, Repr

/-- `QDir(dir).absoluteFilePath(name)`. -/
def absoluteFilePath (dir name : String) : String :=
  dir ++ "/" ++ name

/-- What `readXmlFile` reads of a parsed document: the tag name of the root
element and, in document order, the local name and the text of each child
element of the root. -/
structure DomElement where
  tagName : String
  children : List (String × String)
deriving DecidableEq, Repr

/-- An exception leaving the `try` block of `accept`, by the `catch` clause
that receives it (lines 171-179), with its `what()` text. -/
inductive Raised where
  | stdException (what : String)
  | baseException (what : String)
  | other
deriving DecidableEq, Repr

/-- What happens in the `try` block of `accept` (lines 152-170) for one entry:
`newDocument` is the name of the document that `App::GetApplication().newDocument()`
created, or the exception it raised; `restore` is the exception raised by the
rest of the block (`document->restore()` and the statements after it), if any. -/
structure Attempt where
  newDocument : Except Raised String
  restore : Option Raised
deriving DecidableEq, Repr

/-- The environment of the dialog: Qt and the application. -/
structure Env where
  /-- `QDomDocument::setContent` followed by `documentElement()`; `none` when
  the text is not a well-formed document -/
  parse : String → Option DomElement
  /-- `tr(...)` -/
  tr : String → String
  /-- `qApp->translate("StdCmdNew", "Unnamed")` -/
  unnamed : String
  /-- what the `try` block of `accept` does for the entry at a given index -/
  attempt : Nat → Info → Attempt

/-- `DocumentRecoveryPrivate::XmlConfig`, a `QMap<QString, QString>`. -/
abbrev XmlConfig := List (String × String)

/-- `cfg.contains(key)`. -/
def XmlConfig.contains (cfg : XmlConfig) (key : String) : Bool :=
  (cfg.lookup key).isSome

/-- `cfg[key]` for reading; a key that is absent yields the empty string. -/
def XmlConfig.value (cfg : XmlConfig) (key : String) : String :=
  (cfg.lookup key).getD ""

/-- `cfg[key] = value`. -/
def XmlConfig.assign (cfg : XmlConfig) (key value : String) : XmlConfig :=
  (key, value) :: cfg.filter (fun p => p.1 ≠ key)

/-- The text of the `Status` element written for a status (lines 226-242). -/
def statusText : Status → String
  | .Created => "Created"
  | .Overage => "Deprecated"
  | .Success => "Success"
  | .Failure => "Failure"
  | .Unknown => "Unknown"

/-- The text that `writeRecoveryInfo` sends to the stream (lines 224-245). -/
def recoveryInfoText (info : Info) : String :=
  "<?xml version=\x271.0\x27 encoding=\x27utf-8\x27?>" ++ "\n"
    ++ "<AutoRecovery SchemaVersion=\x221\x22>" ++ "\n"
    ++ "  <Status>" ++ statusText info.status ++ "</Status>" ++ "\n"
    ++ "  <Label>" ++ info.label ++ "</Label>" ++ "\n"
    ++ "  <FileName>" ++ info.fileName ++ "</FileName>" ++ "\n"
    ++ "</AutoRecovery>" ++ "\n"

/-- DocumentRecoveryPrivate::writeRecoveryInfo (lines 217-248): when the meta
file can be opened for writing, its content is replaced. -/
def writeRecoveryInfo (fs : FileSys) (info : Info) : FileSys :=
  if fs.writable info.xmlFile then
    { fs with
      file := fun path =>
        if path = info.xmlFile then some ⟨recoveryInfoText info, fs.now⟩ else fs.file path }
  else fs

/-- The loop of lines 338-344 of `readXmlFile` for one child element. -/
def readXmlChild (cfg : XmlConfig) (child : String × String) : XmlConfig :=
  if child.1 ∈ ["Label", "FileName", "Status"] then cfg.assign child.1 child.2 else cfg

/-- DocumentRecoveryPrivate::readXmlFile (lines 306-348). -/
def readXmlFile (env : Env) (fs : FileSys) (fn : String) : XmlConfig :=
  match fs.file fn with
  | none => []
  | some f =>
    if !fs.readable fn then []
    else match env.parse f.content with
      | none => []
      | some root =>
        if root.tagName ≠ "AutoRecovery" then []
        else root.children.foldl readXmlChild []

/-- Lines 276-284 of `getRecoveryInfo`: the status read from the meta file,
`status` being the status before. -/
def statusFromConfig (cfg : XmlConfig) (status : Status) : Status :=
  if cfg.contains "Status" then
    if cfg.value "Status" = "Deprecated" then .Overage
    else if cfg.value "Status" = "Success" then .Success
    else if cfg.value "Status" = "Failure" then .Failure
    else status
  else status

/-- Lines 266-284 of `getRecoveryInfo`: label, file name and status are taken
from the meta file. -/
def infoFromConfig (cfg : XmlConfig) (info : Info) : Info :=
  let info1 := if cfg.contains "Label" then { info with label := cfg.value "Label" } else info
  let info2 :=
    if cfg.contains "FileName" then { info1 with fileName := cfg.value "FileName" } else info1
  { info2 with status := statusFromConfig cfg info2.status }

/-- Lines 286-299 of `getRecoveryInfo`: the comparison of the modification
dates, for an entry whose status is still `Created`. -/
def compareDates (fs : FileSys) (file : String) (info : Info) : Info × FileSys :=
  if info.status = .Created then
    if info.fileName ≠ "" ∧ fs.fileExists info.fileName then
      if fs.lastModified file < fs.lastModified info.fileName then
        let info1 := { info with status := .Overage }
        (info1, writeRecoveryInfo fs info1)
      else (info, fs)
    else (info, fs)
  else (info, fs)

/-- DocumentRecoveryPrivate::getRecoveryInfo (lines 250-304). -/
def getRecoveryInfo (env : Env) (fs : FileSys) (fi : QFileInfo) : Info × FileSys :=
  let info : Info :=
    { projectFile := "", xmlFile := "", label := env.unnamed, fileName := "", tooltip := "",
      status := .Unknown }
  let doc_dir := fi.absoluteFilePath
  if fs.fileExists (absoluteFilePath doc_dir "fc_recovery_file.fcstd") then
    let file := absoluteFilePath doc_dir "fc_recovery_file.fcstd"
    let info1 : Info :=
      { info with
        status := .Created
        projectFile := file
        tooltip := fi.fileName
        xmlFile := absoluteFilePath doc_dir "fc_recovery_file.xml" }
    if fs.fileExists (absoluteFilePath doc_dir "fc_recovery_file.xml") then
      let cfg := readXmlFile env fs info1.xmlFile
      compareDates fs file (infoFromConfig cfg info1)
    else (info1, fs)
  else (info, fs)

/-- The state of the dialog: `recovered` and `recoveryInfo` of
DocumentRecoveryPrivate (lines 86-87), and whether `QDialog::accept()` has
been called. -/
structure DocumentRecoveryPrivate where
  recovered : Bool
  recoveryInfo : List Info
  accepted : Bool
deriving DecidableEq, Repr

/-- The loop of the constructor (lines 106-118). -/
def constructorLoop (env : Env) :
    List QFileInfo → DocumentRecoveryPrivate → FileSys → DocumentRecoveryPrivate × FileSys
  | [], d, fs => (d, fs)
  | fi :: rest, d, fs =>
    let r := getRecoveryInfo env fs fi
    if r.1.status = .Created then
      constructorLoop env rest { d with recoveryInfo := d.recoveryInfo ++ [r.1] } r.2
    else
      constructorLoop env rest d r.2

/-- DocumentRecovery::DocumentRecovery (lines 97-119). -/
def DocumentRecovery (env : Env) (fs : FileSys) (dirs : List QFileInfo) :
    DocumentRecoveryPrivate × FileSys :=
  constructorLoop env dirs { recovered := false, recoveryInfo := [], accepted := false } fs

/-- DocumentRecovery::foundDocuments (lines 125-129). -/
def foundDocuments (d : DocumentRecoveryPrivate) : Bool :=
  !d.recoveryInfo.isEmpty

/-- The infos that successive calls of `getRecoveryInfo` return for a list of
directories, each call seeing the file system the calls before it left. -/
def recoveryInfos (env : Env) : FileSys → List QFileInfo → List Info
  | _, [] => []
  | fs, fi :: rest =>
    (getRecoveryInfo env fs fi).1 :: recoveryInfos env (getRecoveryInfo env fs fi).2 rest

/-- What `accept` asks of the application and of the file system. -/
inductive Action where
  | newDocument (name : String)
  | closeDocument (name : String)
  | writeRecoveryInfo (info : Info)
deriving DecidableEq, Repr

/-- The text assigned to `errorInfo` by the `catch` clauses (lines 171-179);
`QString::fromLatin1` keeps the text of `what()`. -/
def errorText (env : Env) : Raised → String
  | .stdException what => what
  | .baseException what => what
  | .other => env.tr "Unknown problem occurred"

/-- The `try` block with its `catch` clauses (lines 152-179): the values of
`documentName` and `errorInfo` after it. -/
def tryRestore (env : Env) (a : Attempt) : String × String :=
  match a.newDocument with
  | .error e => ("", errorText env e)
  | .ok documentName =>
    match a.restore with
    | some e => (documentName, errorText env e)
    | none => (documentName, "")

/-- One iteration of the loop of `accept` (lines 148-205) for the entry `info`
at position `index`: the entry after it, the file system after it, and the
actions of the iteration in order. -/
def acceptEntry (env : Env) (fs : FileSys) (index : Nat) (info : Info) :
    Info × FileSys × List Action :=
  let a := env.attempt index info
  let r := tryRestore env a
  let documentName := r.1
  let errorInfo := r.2
  let created : List Action :=
    match a.newDocument with
    | .ok name => [.newDocument name]
    | .error _ => []
  if errorInfo ≠ "" then
    let closed : List Action := if documentName ≠ "" then [.closeDocument documentName] else []
    let info1 := { info with status := .Failure }
    (info1, writeRecoveryInfo fs info1, created ++ closed ++ [.writeRecoveryInfo info1])
  else
    let info1 := { info with status := .Success }
    (info1, writeRecoveryInfo fs info1, created ++ [.writeRecoveryInfo info1])

/-- The loop of `accept` (lines 147-206) from position `index` on; every
action is recorded with the index of its iteration. -/
def acceptLoop (env : Env) :
    List Info → Nat → FileSys → List Info × FileSys × List (Nat × Action)
  | [], _, fs => ([], fs, [])
  | info :: rest, index, fs =>
    let r := acceptEntry env fs index info
    let t := acceptLoop env rest (index + 1) r.2.1
    (r.1 :: t.1, t.2.1, r.2.2.map (fun a => (index, a)) ++ t.2.2)

/-- DocumentRecovery::accept (lines 139-215). -/
def accept (env : Env) (fs : FileSys) (d : DocumentRecoveryPrivate) :
    DocumentRecoveryPrivate × FileSys × List (Nat × Action) :=
  if !d.recovered then
    let t := acceptLoop env d.recoveryInfo 0 fs
    ({ d with recoveryInfo := t.1, recovered := true }, t.2.1, t.2.2)
  else
    ({ d with accepted := true }, fs, [])

/-- The path of the recovery file of a recovery directory (line 259). -/
def recoveryFilePath (dir : String) : String :=
  absoluteFilePath dir "fc_recovery_file.fcstd"

/-- The path of the meta file of a recovery directory (line 264). -/
def metaFilePath (dir : String) : String :=
  absoluteFilePath dir "fc_recovery_file.xml"

/-- The meta file at `path` exists and the status that `getRecoveryInfo` reads
from it (lines 276-284) is no longer `Created`. -/
def MarkedPath (env : Env) (fs : FileSys) (path : String) : Prop :=
  fs.fileExists path = true ∧ statusFromConfig (readXmlFile env fs path) .Created ≠ .Created

/-- The entries to which one call of `getRecoveryInfo` applies
`writeRecoveryInfo` (line 294): the returned entry, when the comparison of the
dates has set its status to `Overage`, that is, when the status is `Overage`
and the status read from the meta file was still `Created`. -/
def getRecoveryInfoWrites (env : Env) (fs : FileSys) (fi : QFileInfo) : List Info :=
  if (getRecoveryInfo env fs fi).1.status = .Overage ∧
      statusFromConfig (readXmlFile env fs (metaFilePath fi.absoluteFilePath)) .Created
        = .Created then
    [(getRecoveryInfo env fs fi).1]
  else []

/-- An environment for the examples: no text parses, `tr` returns its
argument, and the `try` block of `accept` behaves as `attempt` says. -/
def exampleEnv (attempt : Nat → Info → Attempt) : Env :=
  { parse := fun _ => none, tr := fun s => s, unnamed := "Unnamed", attempt := attempt }

/-- An entry with status `Created` for the recovery directory `dir`. -/
def exampleInfo (dir : String) : Info :=
  { projectFile := absoluteFilePath dir "fc_recovery_file.fcstd"
    xmlFile := absoluteFilePath dir "fc_recovery_file.xml"
    label := "Unnamed", fileName := "", tooltip := dir, status := .Created }

/-- The first entry fails to restore after its document was created, every
other entry is restored. -/
def exampleAttempt (index : Nat) (_info : Info) : Attempt :=
  if index = 0 then ⟨.ok "Unnamed", some (.baseException "File not found")⟩
  else ⟨.ok "Unnamed1", none⟩

/-- A dialog with two entries that has not run `accept` yet. -/
def exampleDialog : DocumentRecoveryPrivate :=
  ⟨false, [exampleInfo "/tmp/a", exampleInfo "/tmp/b"], false⟩

/-- An empty file system in which every path can be written. -/
def exampleFileSys : FileSys :=
  { file := fun _ => none, readable := fun _ => true, writable := fun _ => true, now := 0 }

/-- `dropPrefix? p s` is what follows `p` in `s`, when `s` starts with `p`. -/
def dropPrefix? : List Char → List Char → Option (List Char)
  | [], s => some s
  | _ :: _, [] => none
  | c :: p, d :: s => if c = d then dropPrefix? p s else none

/-- `readUntil stop forbidden s` splits `s` at the first `stop`; it fails when
there is none or when a character of `forbidden` comes before it. -/
def readUntil (stop : Char) (forbidden : List Char) :
    List Char → Option (List Char × List Char)
  | [] => none
  | c :: s =>
    if c = stop then some ([], s)
    else if c ∈ forbidden then none
    else
      match readUntil stop forbidden s with
      | some r => some (c :: r.1, r.2)
      | none => none

/-- One child element, written `  <name>text</name>` on a line of its own;
the text may not contain `<`, `>` or `&`.  The result is the name, the text
and what follows the line. -/
def readElement (s : List Char) : Option ((String × String) × List Char) :=
  match dropPrefix? "  <".data s with
  | none => none
  | some s1 =>
    match readUntil '>' ['<', '&', '/'] s1 with
    | none => none
    | some r1 =>
      match readUntil '<' ['&', '>'] r1.2 with
      | none => none
      | some r2 =>
        match dropPrefix? ('/' :: r1.1 ++ ">\n".data) r2.2 with
        | none => none
        | some s4 => some ((String.mk r1.1, String.mk r2.1), s4)

/-- The child elements up to the end tag of the root, at most `fuel` of them. -/
def readElements : Nat → List Char → Option (List (String × String))
  | 0, _ => none
  | fuel + 1, s =>
    if s = "</AutoRecovery>\n".data then some []
    else
      match readElement s with
      | none => none
      | some r =>
        match readElements fuel r.2 with
        | none => none
        | some cs => some (r.1 :: cs)

/-- A parser for the examples, for the part of XML that `writeRecoveryInfo`
emits: the declaration, the root element `AutoRecovery` and child elements
with plain text, one on each line.  Every other text, for instance one with
`&` or `<` inside the text of an element, is not well formed for it. -/
def exampleParse (content : String) : Option DomElement :=
  match dropPrefix?
      ("<?xml version=\x271.0\x27 encoding=\x27utf-8\x27?>\n"
        ++ "<AutoRecovery SchemaVersion=\x221\x22>\n").data content.data with
  | none => none
  | some s =>
    match readElements content.length s with
    | none => none
    | some cs => some ⟨"AutoRecovery", cs⟩

/-- An environment for the examples that reads meta files with `exampleParse`
and restores every document. -/
def exampleReadingEnv : Env :=
  { parse := exampleParse, tr := fun s => s, unnamed := "Unnamed",
    attempt := fun _ _ => ⟨.ok "Unnamed", none⟩ }

/-- The entry of the directory `/tmp/a` for the document `Part` saved as
`/home/u/part.fcstd`, with the given status. -/
def exampleProjectInfo (status : Status) : Info :=
  { projectFile := "/tmp/a/fc_recovery_file.fcstd"
    xmlFile := "/tmp/a/fc_recovery_file.xml"
    label := "Part", fileName := "/home/u/part.fcstd", tooltip := "a", status := status }

/-- A file system with the recovery file of the directory `/tmp/a` (last
modified at time 5), its meta file as written for `exampleProjectInfo` with
status `Created`, and the project file `/home/u/part.fcstd`, last modified at
time 7; `writable` says whether files can be opened for writing. -/
def exampleProjectFileSys (writable : Bool) : FileSys :=
  { file := fun path =>
      if path = "/tmp/a/fc_recovery_file.fcstd" then some ⟨"", 5⟩
      else if path = "/tmp/a/fc_recovery_file.xml" then
        some ⟨recoveryInfoText (exampleProjectInfo .Created), 5⟩
      else if path = "/home/u/part.fcstd" then some ⟨"", 7⟩
      else none
    readable := fun _ => true, writable := fun _ => writable, now := 10 }

end Gui.Dialog

namespace Sketcher

/-! ## Merge: what the loops compute -/

theorem modify_length_append {α : Type} (f : α → α) (pre : List α) (c : α) (rest : List α) :
    (pre ++ c :: rest).modify f pre.length = pre ++ f c :: rest := by
  induction pre with
  | nil => simp
  | cons a pre ih => simp [ih]

theorem mergeLoop_eq {P : Type} (GeoUndef baseGeometry : Int) (pre : List (Constraint P)) :
    ∀ (todo done : List (Constraint P)),
      mergeLoop GeoUndef baseGeometry (pre.length : Int) todo.length (done.length : Int)
          (pre ++ done ++ todo)
        = .ok (pre ++ done ++ todo.map (mergeConstraint GeoUndef baseGeometry)) := by
  intro todo
  induction todo with
  | nil => intro done; simp [mergeLoop]
  | cons c todo ih =>
    intro done
    have hidx : ((done.length : Int) + (pre.length : Int)).toNat = (pre ++ done).length := by
      simp; omega
    have hlt : (pre ++ done).length < (pre ++ done ++ c :: todo).length := by
      simp
    have hbody : mergeLoopBody GeoUndef baseGeometry (pre.length : Int)
        (pre ++ done ++ c :: todo) (done.length : Int)
        = .ok (pre ++ (done ++ [mergeConstraint GeoUndef baseGeometry c]) ++ todo) := by
      unfold mergeLoopBody
      rw [hidx, if_pos ⟨by omega, hlt⟩, modify_length_append]
      simp
    have hnext : (done.length : Int) + 1
        = ((done ++ [mergeConstraint GeoUndef baseGeometry c]).length : Int) := by
      simp
    simp only [List.length_cons, mergeLoop, hbody]
    rw [hnext, ih]
    simp

theorem mergeSelection_eq {G P : Type} (GeoUndef : Int) :
    ∀ (sel : List (SketchObject G P)) (m : SketchObject G P),
      mergeSelection GeoUndef sel m (m.Geometry.length : Int) (m.Constraints.length : Int)
        = .ok ⟨m.Geometry ++ (sel.map (fun s => s.Geometry)).flatten,
               m.Constraints ++ mergedConstraints GeoUndef (m.Geometry.length : Int) sel⟩ := by
  intro sel
  induction sel with
  | nil => intro m; simp [mergeSelection, mergedConstraints]
  | cons Obj rest ih =>
    intro m
    have hn : (((m.Constraints ++ Obj.Constraints).length : Int) - 1
        - (m.Constraints.length : Int) + 1).toNat = Obj.Constraints.length := by
      simp only [List.length_append, Nat.cast_add]
      omega
    have hloop := mergeLoop_eq GeoUndef (m.Geometry.length : Int) m.Constraints
      Obj.Constraints []
    simp only [List.length_nil, Nat.cast_zero, List.append_nil] at hloop
    simp only [mergeSelection, SketchObject.addGeometry, SketchObject.addConstraints, hn, hloop]
    have h := ih ⟨m.Geometry ++ Obj.Geometry,
      m.Constraints ++ Obj.Constraints.map (mergeConstraint GeoUndef (m.Geometry.length : Int))⟩
    simp only [List.length_append, List.length_map, Nat.cast_add] at h
    simp only [List.length_append, Nat.cast_add, sub_add_cancel]
    rw [h]
    simp [mergedConstraints]

theorem activated_merge_eq {G P : Type} (GeoUndef : Int) (selection : List (SketchObject G P))
    (h : 2 ≤ selection.length) :
    CmdSketcherMergeSketches_activated GeoUndef selection
      = .ok ⟨(selection.map (fun s => s.Geometry)).flatten,
             mergedConstraints GeoUndef 0 selection⟩ := by
  unfold CmdSketcherMergeSketches_activated
  rw [if_neg (by omega)]
  have := mergeSelection_eq GeoUndef selection (SketchObject.new : SketchObject G P)
  simpa [SketchObject.new] using this

theorem mergedConstraints_length {G P : Type} (GeoUndef : Int) :
    ∀ (sel : List (SketchObject G P)) (base : Int),
      (mergedConstraints GeoUndef base sel).length
        = (sel.map (fun s => s.Constraints.length)).sum := by
  intro sel
  induction sel with
  | nil => intro base; simp [mergedConstraints]
  | cons Obj rest ih => intro base; simp [mergedConstraints, ih]

theorem mergedConstraints_getElem? {G P : Type} (GeoUndef : Int) :
    ∀ (sel : List (SketchObject G P)) (base : Int) (k j : Nat) (Obj : SketchObject G P)
      (c : Constraint P), sel[k]? = some Obj → Obj.Constraints[j]? = some c →
      (mergedConstraints GeoUndef base sel)[constraintsBefore sel k + j]?
        = some (mergeConstraint GeoUndef (base + geometriesBefore sel k) c) := by
  intro sel
  induction sel with
  | nil => intro base k j Obj c hk; simp at hk
  | cons S rest ih =>
    intro base k j Obj c hk hj
    cases k with
    | zero =>
      simp only [List.getElem?_cons_zero, Option.some.injEq] at hk
      subst hk
      have hlt : j < S.Constraints.length := (List.getElem?_eq_some_iff.1 hj).1
      simp only [constraintsBefore, geometriesBefore, mergedConstraints, List.take_zero,
        List.map_nil, List.sum_nil, Nat.zero_add, Nat.cast_zero, add_zero]
      rw [List.getElem?_append_left (by simpa using hlt)]
      simp [hj]
    | succ k =>
      simp only [List.getElem?_cons_succ] at hk
      have h := ih (base + S.Geometry.length) k j Obj c hk hj
      simp only [constraintsBefore, geometriesBefore, mergedConstraints, List.take_succ_cons,
        List.map_cons, List.sum_cons, Nat.cast_add] at h ⊢
      rw [List.getElem?_append_right (by simp; omega)]
      simp only [List.length_map]
      rw [show S.Constraints.length
            + (List.map (fun s => s.Constraints.length) (List.take k rest)).sum + j
            - S.Constraints.length
          = (List.map (fun s => s.Constraints.length) (List.take k rest)).sum + j by omega]
      rw [h, add_assoc]

theorem flatten_geometry_getElem? {G P : Type} :
    ∀ (sel : List (SketchObject G P)) (k i : Nat) (Obj : SketchObject G P) (g : G),
      sel[k]? = some Obj → Obj.Geometry[i]? = some g →
      ((sel.map (fun s => s.Geometry)).flatten)[geometriesBefore sel k + i]? = some g := by
  intro sel
  induction sel with
  | nil => intro k i Obj g hk; simp at hk
  | cons S rest ih =>
    intro k i Obj g hk hi
    cases k with
    | zero =>
      simp only [List.getElem?_cons_zero, Option.some.injEq] at hk
      subst hk
      have hlt : i < S.Geometry.length := (List.getElem?_eq_some_iff.1 hi).1
      simp only [geometriesBefore, List.take_zero, List.map_nil, List.sum_nil, Nat.zero_add,
        List.map_cons, List.flatten_cons]
      rw [List.getElem?_append_left hlt, hi]
    | succ k =>
      simp only [List.getElem?_cons_succ] at hk
      have h := ih k i Obj g hk hi
      simp only [geometriesBefore, List.take_succ_cons, List.map_cons, List.sum_cons,
        List.flatten_cons] at h ⊢
      rw [List.getElem?_append_right (by omega)]
      rw [show S.Geometry.length
            + (List.map (fun s => s.Geometry.length) (List.take k rest)).sum + i
            - S.Geometry.length
          = (List.map (fun s => s.Geometry.length) (List.take k rest)).sum + i by omega]
      exact h

theorem mergeField_of_nonneg (GeoUndef baseGeometry x : Int) (hU : GeoUndef < -2)
    (hx : 0 ≤ x) : mergeField GeoUndef baseGeometry x = x + baseGeometry := by
  unfold mergeField
  rw [if_pos (Or.inl (by omega))]

theorem mergeField_GeoUndef (GeoUndef baseGeometry : Int) (hU : GeoUndef < -2) :
    mergeField GeoUndef baseGeometry GeoUndef = GeoUndef := by
  unfold mergeField
  rw [if_neg (by omega)]

/-! ## Merge: the claims -/

/-- C1.  Merging a selection of at least two sketches into a fresh sketch
succeeds, and the `j`-th constraint `c` of the `k`-th selected sketch is found
in the merged sketch at position `constraintsBefore selection k + j` as a
constraint `c'` such that, for each of `First`, `Second`, `Third`: a
non-negative value `i` has become `i + geometriesBefore selection k`, and the
value `GeoUndef` is still `GeoUndef`.  Moreover the element `i` of the
geometry of the `k`-th sketch is the element `geometriesBefore selection k + i`
of the merged geometry, so a shifted index refers to the same element.
`GeoUndef` is any value below `-2`. -/
theorem merge_remaps_geometry_indices {G P : Type} (GeoUndef : Int) (hU : GeoUndef < -2)
    (selection : List (SketchObject G P)) (hn : 2 ≤ selection.length) :
    ∃ merged, CmdSketcherMergeSketches_activated GeoUndef selection = .ok merged ∧
      ∀ (k j : Nat) (Obj : SketchObject G P) (c : Constraint P),
        selection[k]? = some Obj → Obj.Constraints[j]? = some c →
        (∃ c', merged.Constraints[constraintsBefore selection k + j]? = some c' ∧
          (0 ≤ c.First → c'.First = c.First + geometriesBefore selection k) ∧
          (c.First = GeoUndef → c'.First = GeoUndef) ∧
          (0 ≤ c.Second → c'.Second = c.Second + geometriesBefore selection k) ∧
          (c.Second = GeoUndef → c'.Second = GeoUndef) ∧
          (0 ≤ c.Third → c'.Third = c.Third + geometriesBefore selection k) ∧
          (c.Third = GeoUndef → c'.Third = GeoUndef)) ∧
        (∀ (i : Nat) (g : G), Obj.Geometry[i]? = some g →
          merged.Geometry[geometriesBefore selection k + i]? = some g) := by
  refine ⟨_, activated_merge_eq GeoUndef selection hn, ?_⟩
  intro k j Obj c hk hj
  refine ⟨⟨mergeConstraint GeoUndef (geometriesBefore selection k) c, ?_, ?_⟩, ?_⟩
  · have h := mergedConstraints_getElem? GeoUndef selection 0 k j Obj c hk hj
    simpa using h
  · refine ⟨?_, ?_, ?_, ?_, ?_, ?_⟩
    · intro h; exact mergeField_of_nonneg GeoUndef _ _ hU h
    · intro h; simp only [mergeConstraint, h]; exact mergeField_GeoUndef GeoUndef _ hU
    · intro h; exact mergeField_of_nonneg GeoUndef _ _ hU h
    · intro h; simp only [mergeConstraint, h]; exact mergeField_GeoUndef GeoUndef _ hU
    · intro h; exact mergeField_of_nonneg GeoUndef _ _ hU h
    · intro h; simp only [mergeConstraint, h]; exact mergeField_GeoUndef GeoUndef _ hU
  · intro i g hi
    exact flatten_geometry_getElem? selection k i Obj g hk hi

/-- C1, at a concrete selection: two sketches with two and one geometry
elements; the constraint of the second sketch has `First = 0`, which becomes
`2`, and `Third = GeoUndef = -2000`, which is kept. -/
theorem merge_remaps_geometry_indices_witness :
    (-2000 : Int) < -2 ∧
    2 ≤ [(⟨[10, 11], [⟨0, 1, -2000, 7⟩]⟩ : SketchObject Nat Nat),
          ⟨[20], [⟨0, -2000, -2000, 8⟩]⟩].length ∧
    ∃ merged c',
      CmdSketcherMergeSketches_activated (-2000)
        [(⟨[10, 11], [⟨0, 1, -2000, 7⟩]⟩ : SketchObject Nat Nat),
          ⟨[20], [⟨0, -2000, -2000, 8⟩]⟩] = .ok merged ∧
      merged.Constraints[1]? = some c' ∧ c'.First = 2 ∧ c'.Third = -2000 := by
  obtain ⟨merged, hm, h⟩ := merge_remaps_geometry_indices (-2000) (by decide)
    [(⟨[10, 11], [⟨0, 1, -2000, 7⟩]⟩ : SketchObject Nat Nat), ⟨[20], [⟨0, -2000, -2000, 8⟩]⟩]
    (by decide)
  obtain ⟨⟨c', hc, h1, _, _, _, _, h6⟩, _⟩ := h 1 0 ⟨[20], [⟨0, -2000, -2000, 8⟩]⟩
    ⟨0, -2000, -2000, 8⟩ rfl rfl
  refine ⟨by decide, by decide, merged, c', hm, ?_, ?_, ?_⟩
  · simpa [constraintsBefore] using hc
  · simpa [geometriesBefore] using h1 (by decide)
  · exact h6 rfl

/-- C2.  Merging a selection of at least two sketches into a fresh sketch
succeeds; the merged geometry is the concatenation, in selection order, of
the geometry lists of the selected sketches; the merged sketch has as many
constraints as the selected sketches together; and the `j`-th constraint of
the `k`-th selected sketch sits at position `constraintsBefore selection k + j`
(after all constraints of the sketches before it, in its original order), with
its members `First`, `Second`, `Third` remapped by `mergeConstraint` and the
rest of it unchanged. -/
theorem merge_concatenates {G P : Type} (GeoUndef : Int)
    (selection : List (SketchObject G P)) (hn : 2 ≤ selection.length) :
    ∃ merged, CmdSketcherMergeSketches_activated GeoUndef selection = .ok merged ∧
      merged.Geometry = (selection.map (fun s => s.Geometry)).flatten ∧
      merged.Constraints.length = (selection.map (fun s => s.Constraints.length)).sum ∧
      ∀ (k j : Nat) (Obj : SketchObject G P) (c : Constraint P),
        selection[k]? = some Obj → Obj.Constraints[j]? = some c →
        ∃ c', merged.Constraints[constraintsBefore selection k + j]? = some c' ∧
          c' = mergeConstraint GeoUndef (geometriesBefore selection k) c ∧
          c'.Rest = c.Rest := by
  refine ⟨_, activated_merge_eq GeoUndef selection hn, rfl,
    mergedConstraints_length GeoUndef selection 0, ?_⟩
  intro k j Obj c hk hj
  refine ⟨mergeConstraint GeoUndef (geometriesBefore selection k) c, ?_, rfl, rfl⟩
  have h := mergedConstraints_getElem? GeoUndef selection 0 k j Obj c hk hj
  simpa using h

/-- C2, at a concrete selection of three sketches. -/
theorem merge_concatenates_witness :
    2 ≤ [(⟨[10, 11], [⟨0, 1, -2000, 7⟩]⟩ : SketchObject Nat Nat), ⟨[], []⟩,
          ⟨[20], [⟨0, -2000, -2000, 8⟩, ⟨0, 0, -2000, 9⟩]⟩].length ∧
    ∃ merged,
      CmdSketcherMergeSketches_activated (-2000)
        [(⟨[10, 11], [⟨0, 1, -2000, 7⟩]⟩ : SketchObject Nat Nat), ⟨[], []⟩,
          ⟨[20], [⟨0, -2000, -2000, 8⟩, ⟨0, 0, -2000, 9⟩]⟩] = .ok merged ∧
      merged.Geometry = [10, 11, 20] ∧ merged.Constraints.length = 3 := by
  obtain ⟨merged, hm, hg, hl, _⟩ := merge_concatenates (-2000)
    [(⟨[10, 11], [⟨0, 1, -2000, 7⟩]⟩ : SketchObject Nat Nat), ⟨[], []⟩,
      ⟨[20], [⟨0, -2000, -2000, 8⟩, ⟨0, 0, -2000, 9⟩]⟩] (by decide)
  exact ⟨by decide, merged, hm, by simpa using hg, by simpa using hl⟩

/-- C3, the code at a failing input.  The first selected sketch has one
geometry element; the only constraint of the second one has `First = 0` and
`Second = -1` (the x axis).  In the merged sketch `Second` is `0`, the first
geometry element of the first sketch: the reference to the axis was shifted
by the number of geometry elements merged before. -/
theorem merge_shifts_axis_reference :
    CmdSketcherMergeSketches_activated (-2000)
      [(⟨[10], []⟩ : SketchObject Nat Nat), ⟨[20], [⟨0, -1, -2000, 7⟩]⟩]
      = .ok ⟨[10, 20], [⟨1, 0, -2000, 7⟩]⟩ := by
  decide

/-! ## Mirror: what the loop computes -/

theorem mirrorOne_eq {G P Pos : Type}
    (addSymmetric : SketchObject G P → List Int → Int → Pos → SketchObject G P)
    (GeoUndef refgeoid : Int) (refposid : Pos) (Obj : SketchObject G P)
    (hg : Obj.Geometry.length
      ≤ (mirrorTempSketch addSymmetric refgeoid refposid Obj).1.Geometry.length)
    (hc : Obj.Constraints.length
      ≤ (mirrorTempSketch addSymmetric refgeoid refposid Obj).1.Constraints.length) :
    mirrorOne addSymmetric GeoUndef refgeoid refposid Obj
      = .ok ⟨(mirrorTempSketch addSymmetric refgeoid refposid Obj).1.Geometry.drop
               Obj.Geometry.length,
             ((mirrorTempSketch addSymmetric refgeoid refposid Obj).1.Constraints.drop
               Obj.Constraints.length).map
               (mirrorConstraint GeoUndef ((Obj.Geometry.length : Int) - 1))⟩ := by
  have h1 : (mirrorTempSketch addSymmetric refgeoid refposid Obj).2.1
      = (Obj.Geometry.length : Int) - 1 := by
    simp [mirrorTempSketch, SketchObject.addGeometry, SketchObject.new]
  have h2 : (mirrorTempSketch addSymmetric refgeoid refposid Obj).2.2
      = (Obj.Constraints.length : Int) - 1 := by
    simp [mirrorTempSketch, SketchObject.addGeometry, SketchObject.addConstraints,
      SketchObject.new]
  have hvg : vectorFrom (mirrorTempSketch addSymmetric refgeoid refposid Obj).1.Geometry
      ((Obj.Geometry.length : Int) - 1 + 1)
      = .ok ((mirrorTempSketch addSymmetric refgeoid refposid Obj).1.Geometry.drop
          Obj.Geometry.length) := by
    unfold vectorFrom
    rw [sub_add_cancel, Int.toNat_ofNat, if_pos ⟨by omega, hg⟩]
  have hvc : vectorFrom (mirrorTempSketch addSymmetric refgeoid refposid Obj).1.Constraints
      ((Obj.Constraints.length : Int) - 1 + 1)
      = .ok ((mirrorTempSketch addSymmetric refgeoid refposid Obj).1.Constraints.drop
          Obj.Constraints.length) := by
    unfold vectorFrom
    rw [sub_add_cancel, Int.toNat_ofNat, if_pos ⟨by omega, hc⟩]
  unfold mirrorOne
  simp only [h1, h2, hvg, hvc]
  simp [SketchObject.addGeometry, SketchObject.addConstraints, SketchObject.new]

theorem mirrorSelection_getElem? {G P Pos : Type}
    (addSymmetric : SketchObject G P → List Int → Int → Pos → SketchObject G P)
    (GeoUndef refgeoid : Int) (refposid : Pos) :
    ∀ (selection : List (SketchObject G P)),
      (∀ Obj ∈ selection, ∃ m, mirrorOne addSymmetric GeoUndef refgeoid refposid Obj = .ok m) →
      ∃ mirrors, mirrorSelection addSymmetric GeoUndef refgeoid refposid selection = .ok mirrors ∧
        mirrors.length = selection.length ∧
        ∀ (k : Nat) (Obj : SketchObject G P), selection[k]? = some Obj →
          ∃ m, mirrors[k]? = some m ∧
            mirrorOne addSymmetric GeoUndef refgeoid refposid Obj = .ok m := by
  intro selection
  induction selection with
  | nil => intro _; exact ⟨[], rfl, rfl, by intro k Obj hk; simp at hk⟩
  | cons S rest ih =>
    intro hall
    obtain ⟨m, hm⟩ := hall S (List.mem_cons_self _ _)
    obtain ⟨ms, hms, hlen, hget⟩ := ih (fun Obj hObj => hall Obj (List.mem_cons_of_mem _ hObj))
    refine ⟨m :: ms, ?_, by simp [hlen], ?_⟩
    · simp only [mirrorSelection, hm, hms]
    · intro k Obj hk
      cases k with
      | zero =>
        simp only [List.getElem?_cons_zero, Option.some.injEq] at hk
        subst hk
        exact ⟨m, by simp, hm⟩
      | succ k =>
        simp only [List.getElem?_cons_succ] at hk ⊢
        exact hget k Obj hk

theorem mirrorField_of_index (GeoUndef : Int) (n : Nat) (x i : Int) (hU : GeoUndef < -2)
    (hi : 0 ≤ i) (hx : x = n + i) : mirrorField GeoUndef ((n : Int) - 1) x = i := by
  unfold mirrorField
  rw [if_pos (Or.inl (by omega))]
  omega

theorem mirrorField_of_ne_GeoUndef (GeoUndef addedGeometries x : Int) (h : x ≠ GeoUndef) :
    mirrorField GeoUndef addedGeometries x = x - (addedGeometries + 1) := by
  unfold mirrorField
  rw [if_pos (Or.inl h)]

theorem mirrorField_GeoUndef (GeoUndef addedGeometries : Int) (hU : GeoUndef < -2) :
    mirrorField GeoUndef addedGeometries GeoUndef = GeoUndef := by
  unfold mirrorField
  rw [if_neg (by omega)]

/-! ## Mirror: the claims -/

/-- C4.  Let the mirror dialog be accepted and at least one sketch be
selected, and let `addSymmetric` leave in the temporary sketch at least the
`n` geometry elements and the `m` constraints that were put into it.  Then
the command succeeds with one mirrored sketch per selected sketch, and for
the `k`-th selected sketch `Obj`: the geometry of its mirrored sketch is the
geometry of the temporary sketch without its first `n` elements; its
constraints are, one for one and in order, the constraints of the temporary
sketch without the first `m`; and in each of them, for each of `First`,
`Second`, `Third`, a value `n + i` with `0 ≤ i` has become `i` and the value
`GeoUndef` is still `GeoUndef`, the rest of the constraint being unchanged.
`GeoUndef` is any value below `-2`. -/
theorem mirror_extracts_and_remaps {G P Pos : Type}
    (addSymmetric : SketchObject G P → List Int → Int → Pos → SketchObject G P)
    (GeoUndef : Int) (hU : GeoUndef < -2) (refgeoid : Int) (refposid : Pos)
    (selection : List (SketchObject G P)) (hsel : 1 ≤ selection.length)
    (hadd : ∀ Obj ∈ selection,
      Obj.Geometry.length
        ≤ (mirrorTempSketch addSymmetric refgeoid refposid Obj).1.Geometry.length ∧
      Obj.Constraints.length
        ≤ (mirrorTempSketch addSymmetric refgeoid refposid Obj).1.Constraints.length) :
    ∃ mirrors,
      CmdSketcherMirrorSketch_activated addSymmetric GeoUndef (some (refgeoid, refposid))
        selection = .ok mirrors ∧
      mirrors.length = selection.length ∧
      ∀ (k : Nat) (Obj : SketchObject G P), selection[k]? = some Obj →
        ∃ mirrorsketch, mirrors[k]? = some mirrorsketch ∧
          mirrorsketch.Geometry
            = (mirrorTempSketch addSymmetric refgeoid refposid Obj).1.Geometry.drop
                Obj.Geometry.length ∧
          mirrorsketch.Constraints.length
            = ((mirrorTempSketch addSymmetric refgeoid refposid Obj).1.Constraints.drop
                Obj.Constraints.length).length ∧
          ∀ (j : Nat) (c : Constraint P),
            ((mirrorTempSketch addSymmetric refgeoid refposid Obj).1.Constraints.drop
                Obj.Constraints.length)[j]? = some c →
            ∃ c', mirrorsketch.Constraints[j]? = some c' ∧ c'.Rest = c.Rest ∧
              (∀ i : Int, 0 ≤ i → c.First = Obj.Geometry.length + i → c'.First = i) ∧
              (c.First = GeoUndef → c'.First = GeoUndef) ∧
              (∀ i : Int, 0 ≤ i → c.Second = Obj.Geometry.length + i → c'.Second = i) ∧
              (c.Second = GeoUndef → c'.Second = GeoUndef) ∧
              (∀ i : Int, 0 ≤ i → c.Third = Obj.Geometry.length + i → c'.Third = i) ∧
              (c.Third = GeoUndef → c'.Third = GeoUndef) := by
  have hone : ∀ Obj ∈ selection,
      ∃ m, mirrorOne addSymmetric GeoUndef refgeoid refposid Obj = .ok m := by
    intro Obj hObj
    exact ⟨_, mirrorOne_eq addSymmetric GeoUndef refgeoid refposid Obj
      (hadd Obj hObj).1 (hadd Obj hObj).2⟩
  obtain ⟨mirrors, hm, hlen, hget⟩ :=
    mirrorSelection_getElem? addSymmetric GeoUndef refgeoid refposid selection hone
  refine ⟨mirrors, ?_, hlen, ?_⟩
  · unfold CmdSketcherMirrorSketch_activated
    rw [if_neg (by omega)]
    exact hm
  · intro k Obj hk
    obtain ⟨m, hmk, hmo⟩ := hget k Obj hk
    have hObj : Obj ∈ selection := List.getElem?_mem hk
    rw [mirrorOne_eq addSymmetric GeoUndef refgeoid refposid Obj
      (hadd Obj hObj).1 (hadd Obj hObj).2] at hmo
    have hmeq := (Except.ok.inj hmo).symm
    subst hmeq
    refine ⟨_, hmk, rfl, by simp, ?_⟩
    intro j c hj
    refine ⟨mirrorConstraint GeoUndef ((Obj.Geometry.length : Int) - 1) c, ?_, rfl,
      ?_, ?_, ?_, ?_, ?_, ?_⟩
    · rw [List.getElem?_map, hj]; rfl
    · intro i hi hx; exact mirrorField_of_index GeoUndef _ _ i hU hi hx
    · intro h; simp only [mirrorConstraint, h]; exact mirrorField_GeoUndef GeoUndef _ hU
    · intro i hi hx; exact mirrorField_of_index GeoUndef _ _ i hU hi hx
    · intro h; simp only [mirrorConstraint, h]; exact mirrorField_GeoUndef GeoUndef _ hU
    · intro i hi hx; exact mirrorField_of_index GeoUndef _ _ i hU hi hx
    · intro h; simp only [mirrorConstraint, h]; exact mirrorField_GeoUndef GeoUndef _ hU

/-- C4, at a concrete sketch with two geometry elements and one constraint:
the mirrored sketch holds the appended element and the appended constraint,
whose `First = 2` has become `0`. -/
theorem mirror_extracts_and_remaps_witness :
    (-2000 : Int) < -2 ∧ 1 ≤ [(⟨[10, 11], [⟨0, 1, -2000, 7⟩]⟩ : SketchObject Nat Nat)].length ∧
    ∃ mirrors mirrorsketch,
      CmdSketcherMirrorSketch_activated exampleAddSymmetric (-2000) (some (-1, ()))
        [(⟨[10, 11], [⟨0, 1, -2000, 7⟩]⟩ : SketchObject Nat Nat)] = .ok mirrors ∧
      mirrors[0]? = some mirrorsketch ∧ mirrorsketch.Geometry = [99] ∧
      mirrorsketch.Constraints.length = 1 := by
  obtain ⟨mirrors, hm, _, h⟩ := mirror_extracts_and_remaps exampleAddSymmetric (-2000)
    (by decide) (-1) () [(⟨[10, 11], [⟨0, 1, -2000, 7⟩]⟩ : SketchObject Nat Nat)] (by decide)
    (by decide)
  obtain ⟨mirrorsketch, h0, hg, hl, _⟩ := h 0 ⟨[10, 11], [⟨0, 1, -2000, 7⟩]⟩ rfl
  refine ⟨by decide, by decide, mirrors, mirrorsketch, hm, h0, ?_, ?_⟩
  · rw [hg]; decide
  · rw [hl]; decide

/-! ## Map sketch: the claims -/

/-- C13, the claim as stated fails.  In the example document the fillet
depends on the sketch through the pad, and the sketch is not in the out-list
of the fillet.  With the sketch chosen and a planar face of the fillet
selected, the command shows no warning and assigns the `Support` of the
sketch. -/
theorem mapSketch_misses_indirect_dependency :
    dependsOn exampleObjects 2 0 ∧
    CmdSketcherMapSketch_activated exampleObjects (some "Sketch")
        (some (exampleFace ⟨2, "Fillet", "Fillet", false, [1]⟩))
      = .ok [.openCommand "Map a Sketch on Face",
             .doCommand
               "App.activeDocument().Sketch.Support = (App.activeDocument().Fillet,[\x27Face1\x27])",
             .doCommand "App.activeDocument().recompute()",
             .doCommand "Gui.activeDocument().setEdit(\x27Sketch\x27)"] := by
  refine ⟨?_, by decide⟩
  refine Relation.TransGen.tail (Relation.TransGen.single (b := 1) ?_) ?_
  · exact ⟨⟨2, "Fillet", "Fillet", false, [1]⟩, by decide, rfl, by decide⟩
  · exact ⟨⟨1, "Pad", "Pad", false, [0]⟩, by decide, rfl, by decide⟩

/-- C13, amended.  Let `sketch` be the chosen sketch (the sketch at the index
of the chosen text among the labels of the sketches of the document) and let
exactly one sub-element of the support object be selected.  Whenever the
support object links to the sketch directly, that is, the sketch is in its
out-list, the command shows the `Cyclic dependency` warning and nothing else:
it issues no command, so none that assigns the `Support` of the sketch. -/
theorem mapSketch_direct_dependency_refused (objects : List DocumentObject) (text : String)
    (result : FaceSelection) (sketch : DocumentObject) (face : String)
    (hsketch : (objects.filter (fun o => o.isSketch))[
        ((objects.filter (fun o => o.isSketch)).map (fun o => o.label)).indexOf text]?
      = some sketch)
    (hsub : result.subNames = [face])
    (hdep : sketch.id ∈ result.part.outList) :
    ∃ actions, CmdSketcherMapSketch_activated objects (some text) (some result) = .ok actions ∧
      actions = [.warning "Cyclic dependency"
        "You cannot choose a support object depending on the selected sketch!"] ∧
      ∀ cmd, CommandAction.doCommand cmd ∉ actions := by
  refine ⟨_, ?_, rfl, by intro cmd h; simp at h⟩
  have hne : (objects.filter (fun o => o.isSketch)).isEmpty = false := by
    cases hf : objects.filter (fun o => o.isSketch) with
    | nil => rw [hf] at hsketch; simp at hsketch
    | cons a l => rfl
  unfold CmdSketcherMapSketch_activated
  simp only [hne, hsketch, hsub, hdep]
  simp

/-- C13, amended, at the example document: the pad links to the sketch, so a
face of the pad is refused as support of the sketch. -/
theorem mapSketch_direct_dependency_refused_witness :
    (exampleObjects.filter (fun o => o.isSketch))[
        ((exampleObjects.filter (fun o => o.isSketch)).map (fun o => o.label)).indexOf "Sketch"]?
      = some ⟨0, "Sketch", "Sketch", true, []⟩ ∧
    (exampleFace ⟨1, "Pad", "Pad", false, [0]⟩).subNames = ["Face1"] ∧
    (0 : Nat) ∈ (exampleFace ⟨1, "Pad", "Pad", false, [0]⟩).part.outList ∧
    CmdSketcherMapSketch_activated exampleObjects (some "Sketch")
        (some (exampleFace ⟨1, "Pad", "Pad", false, [0]⟩))
      = .ok [.warning "Cyclic dependency"
          "You cannot choose a support object depending on the selected sketch!"] :=
  ⟨by decide, rfl, by decide, by
    obtain ⟨actions, h1, h2, _⟩ := mapSketch_direct_dependency_refused exampleObjects "Sketch"
      (exampleFace ⟨1, "Pad", "Pad", false, [0]⟩) ⟨0, "Sketch", "Sketch", true, []⟩ "Face1"
      (by decide) rfl (by decide)
    rw [h1, h2]⟩

end Sketcher

namespace Gui.Dialog

/-! ## The constructor -/

theorem constructorLoop_recoveryInfo (env : Env) :
    ∀ (dirs : List QFileInfo) (d : DocumentRecoveryPrivate) (fs : FileSys),
      (constructorLoop env dirs d fs).1
        = { d with
            recoveryInfo := d.recoveryInfo
              ++ (recoveryInfos env fs dirs).filter (fun info => info.status = .Created) } := by
  intro dirs
  induction dirs with
  | nil => intro d fs; simp [constructorLoop, recoveryInfos]
  | cons fi rest ih =>
    intro d fs
    by_cases h : (getRecoveryInfo env fs fi).1.status = .Created
    · simp [constructorLoop, recoveryInfos, h, ih]
    · simp [constructorLoop, recoveryInfos, h, ih]

theorem recoveryInfos_length (env : Env) :
    ∀ (dirs : List QFileInfo) (fs : FileSys), (recoveryInfos env fs dirs).length = dirs.length := by
  intro dirs
  induction dirs with
  | nil => intro fs; rfl
  | cons fi rest ih => intro fs; simp [recoveryInfos, ih]

/-- C6.  For every list of directories, `getRecoveryInfo` is called once per
directory, in order (`recoveryInfos`); the `recoveryInfo` of the new dialog is
the list of the returned infos whose status is `Created`, in that order, so
every listed entry has status `Created` and no info with status `Unknown`,
`Overage`, `Success` or `Failure` is listed; and `foundDocuments()` is true if
and only if at least one of the returned infos has status `Created`. -/
theorem constructor_lists_created (env : Env) (fs : FileSys) (dirs : List QFileInfo) :
    (recoveryInfos env fs dirs).length = dirs.length ∧
    (DocumentRecovery env fs dirs).1.recoveryInfo
      = (recoveryInfos env fs dirs).filter (fun info => info.status = .Created) ∧
    (∀ info ∈ (DocumentRecovery env fs dirs).1.recoveryInfo, info.status = .Created) ∧
    (∀ info ∈ recoveryInfos env fs dirs, info.status ≠ .Created →
      info ∉ (DocumentRecovery env fs dirs).1.recoveryInfo) ∧
    (foundDocuments (DocumentRecovery env fs dirs).1 = true
      ↔ ∃ info ∈ recoveryInfos env fs dirs, info.status = .Created) := by
  have h : (DocumentRecovery env fs dirs).1.recoveryInfo
      = (recoveryInfos env fs dirs).filter (fun info => info.status = .Created) := by
    simp [DocumentRecovery, constructorLoop_recoveryInfo]
  refine ⟨recoveryInfos_length env dirs fs, h, ?_, ?_, ?_⟩
  · intro info hinfo
    rw [h] at hinfo
    simpa using (List.mem_filter.1 hinfo).2
  · intro info _ hne hinfo
    rw [h] at hinfo
    exact hne (by simpa using (List.mem_filter.1 hinfo).2)
  · rw [foundDocuments, h]
    constructor
    · intro hne
      cases hf : (recoveryInfos env fs dirs).filter (fun info => info.status = .Created) with
      | nil => simp [hf] at hne
      | cons a l =>
        have ha : a ∈ (recoveryInfos env fs dirs).filter (fun info => info.status = .Created) := by
          rw [hf]; exact List.mem_cons_self _ _
        exact ⟨a, (List.mem_filter.1 ha).1, by simpa using (List.mem_filter.1 ha).2⟩
    · rintro ⟨info, hmem, hst⟩
      have ha : info ∈ (recoveryInfos env fs dirs).filter (fun info => info.status = .Created) :=
        List.mem_filter.2 ⟨hmem, by simpa using hst⟩
      cases hf : (recoveryInfos env fs dirs).filter (fun info => info.status = .Created) with
      | nil => rw [hf] at ha; simp at ha
      | cons a l => simp

/-! ## accept -/

theorem acceptEntry_info (env : Env) (fs : FileSys) (index : Nat) (info : Info) :
    ((acceptEntry env fs index info).1.status = .Success
      ∨ (acceptEntry env fs index info).1.status = .Failure) ∧
    (acceptEntry env fs index info).1
      = { info with status := (acceptEntry env fs index info).1.status } := by
  unfold acceptEntry
  by_cases h : (tryRestore env (env.attempt index info)).2 = ""
  · simp [h]
  · simp [h]

theorem acceptEntry_status (env : Env) (fs : FileSys) (index : Nat) (info : Info) :
    ((tryRestore env (env.attempt index info)).2 ≠ "" →
      (acceptEntry env fs index info).1.status = .Failure) ∧
    ((tryRestore env (env.attempt index info)).2 = "" →
      (acceptEntry env fs index info).1.status = .Success) := by
  unfold acceptEntry
  by_cases h : (tryRestore env (env.attempt index info)).2 = ""
  · simp [h]
  · simp [h]

theorem acceptEntry_close (env : Env) (fs : FileSys) (index : Nat) (info : Info) :
    ((acceptEntry env fs index info).1.status = .Failure →
      ∀ name, Action.newDocument name ∈ (acceptEntry env fs index info).2.2 → name ≠ "" →
        Action.closeDocument name ∈ (acceptEntry env fs index info).2.2) ∧
    ((acceptEntry env fs index info).1.status = .Success →
      ∀ name, Action.closeDocument name ∉ (acceptEntry env fs index info).2.2) := by
  unfold acceptEntry tryRestore
  generalize env.attempt index info = a
  obtain ⟨newDocument, restore⟩ := a
  cases newDocument with
  | error e =>
    by_cases h : errorText env e = ""
    · simp [h]
    · simp [h]
  | ok documentName =>
    cases restore with
    | none => simp
    | some e =>
      by_cases h : errorText env e = ""
      · simp [h]
      · by_cases hd : documentName = ""
        · simp [h, hd]
        · simp [h, hd]

theorem acceptLoop_index_le (env : Env) :
    ∀ (infos : List Info) (index : Nat) (fs : FileSys) (n : Nat) (a : Action),
      (n, a) ∈ (acceptLoop env infos index fs).2.2 → index ≤ n := by
  intro infos
  induction infos with
  | nil => intro index fs n a h; simp [acceptLoop] at h
  | cons info rest ih =>
    intro index fs n a h
    simp only [acceptLoop, List.mem_append, List.mem_map, Prod.mk.injEq] at h
    rcases h with ⟨_, _, h1, _⟩ | h
    · omega
    · have := ih _ _ _ _ h
      omega

theorem acceptLoop_getElem? (env : Env) :
    ∀ (infos : List Info) (index : Nat) (fs : FileSys),
      (acceptLoop env infos index fs).1.length = infos.length ∧
      ∀ (i : Nat) (info : Info), infos[i]? = some info →
        ∃ fs1, (acceptLoop env infos index fs).1[i]?
            = some (acceptEntry env fs1 (index + i) info).1 ∧
          ∀ a, (index + i, a) ∈ (acceptLoop env infos index fs).2.2
            ↔ a ∈ (acceptEntry env fs1 (index + i) info).2.2 := by
  intro infos
  induction infos with
  | nil =>
    intro index fs
    exact ⟨rfl, by intro i info h; simp at h⟩
  | cons info0 rest ih =>
    intro index fs
    obtain ⟨hlen, hget⟩ := ih (index + 1) (acceptEntry env fs index info0).2.1
    refine ⟨by simp [acceptLoop, hlen], ?_⟩
    intro i info hi
    cases i with
    | zero =>
      simp only [List.getElem?_cons_zero, Option.some.injEq] at hi
      subst hi
      refine ⟨fs, by simp [acceptLoop], ?_⟩
      intro a
      simp only [acceptLoop, Nat.add_zero, List.mem_append, List.mem_map, Prod.mk.injEq]
      constructor
      · rintro (⟨b, hb, _, rfl⟩ | h)
        · exact hb
        · have := acceptLoop_index_le env _ _ _ _ _ h
          omega
      · intro h
        exact Or.inl ⟨a, h, trivial, rfl⟩
    | succ i =>
      simp only [List.getElem?_cons_succ] at hi
      obtain ⟨fs1, h1, h2⟩ := hget i info hi
      have hidx : index + (i + 1) = index + 1 + i := by omega
      refine ⟨fs1, ?_, ?_⟩
      · simp only [acceptLoop, List.getElem?_cons_succ, hidx]
        exact h1
      · intro a
        rw [hidx, ← h2 a]
        simp only [acceptLoop, List.mem_append, List.mem_map, Prod.mk.injEq]
        constructor
        · rintro (⟨_, _, h, _⟩ | h)
          · omega
          · exact h
        · intro h
          exact Or.inr h

/-- C7.  The first call of `accept` (the one that finds `recovered` false)
sets `recovered`, keeps the number of listed entries, and turns the entry at
each position into the same entry with status `Success` or `Failure`; so no
entry is left with status `Created`.  This holds whatever the statuses of the
entries were before. -/
theorem accept_first_call (env : Env) (fs : FileSys) (d : DocumentRecoveryPrivate)
    (hrec : d.recovered = false) :
    (accept env fs d).1.recovered = true ∧
    (accept env fs d).1.recoveryInfo.length = d.recoveryInfo.length ∧
    ∀ (i : Nat) (info : Info), d.recoveryInfo[i]? = some info →
      ∃ info1, (accept env fs d).1.recoveryInfo[i]? = some info1 ∧
        (info1.status = .Success ∨ info1.status = .Failure) ∧
        info1.status ≠ .Created ∧
        info1 = { info with status := info1.status } := by
  obtain ⟨hlen, hget⟩ := acceptLoop_getElem? env d.recoveryInfo 0 fs
  refine ⟨by simp [accept, hrec], by simp [accept, hrec, hlen], ?_⟩
  intro i info hi
  obtain ⟨fs1, h1, _⟩ := hget i info hi
  obtain ⟨hst, heq⟩ := acceptEntry_info env fs1 (0 + i) info
  refine ⟨_, by simpa [accept, hrec] using h1, hst, ?_, heq⟩
  rcases hst with h | h <;> rw [h] <;> decide

/-- C7, at a dialog with two entries, the first of which fails to restore:
after `accept` both entries are still listed and the first one is the same
entry with status `Failure`. -/
theorem accept_first_call_witness :
    exampleDialog.recovered = false ∧
    (accept (exampleEnv exampleAttempt) exampleFileSys exampleDialog).1.recovered = true ∧
    (accept (exampleEnv exampleAttempt) exampleFileSys exampleDialog).1.recoveryInfo.length = 2 ∧
    ∃ info1,
      (accept (exampleEnv exampleAttempt) exampleFileSys exampleDialog).1.recoveryInfo[0]?
        = some info1 ∧
      info1.status ≠ .Created ∧
      info1 = { exampleInfo "/tmp/a" with status := info1.status } := by
  obtain ⟨h1, h2, h3⟩ :=
    accept_first_call (exampleEnv exampleAttempt) exampleFileSys exampleDialog rfl
  obtain ⟨info1, h4, _, h5, h6⟩ := h3 0 (exampleInfo "/tmp/a") rfl
  exact ⟨rfl, h1, h2, info1, h4, h5, h6⟩

/-- C8, the code at a failing input.  The document of the only entry is
created and `restore` raises a `std::exception` whose `what()` is the empty
text.  `errorInfo` is then empty, the entry gets status `Success`, and the
document is not closed: the only actions are the creation of the document and
the writing of the meta file. -/
theorem accept_exception_with_empty_message :
    (accept (exampleEnv fun _ _ => ⟨.ok "Unnamed", some (.stdException "")⟩) exampleFileSys
        ⟨false, [exampleInfo "/tmp/a"], false⟩).1
      = ⟨true, [{ exampleInfo "/tmp/a" with status := .Success }], false⟩ ∧
    (accept (exampleEnv fun _ _ => ⟨.ok "Unnamed", some (.stdException "")⟩) exampleFileSys
        ⟨false, [exampleInfo "/tmp/a"], false⟩).2.2
      = [(0, .newDocument "Unnamed"),
         (0, .writeRecoveryInfo { exampleInfo "/tmp/a" with status := .Success })] := by
  decide

/-- C9.  After `accept`, for the entry at each position `i`: if its status is
`Failure` and a document with a non-empty name was created for it in this
call, that document was closed in the same iteration; if its status is
`Success`, no document was closed in its iteration. -/
theorem accept_closes_failed_documents (env : Env) (fs : FileSys)
    (d : DocumentRecoveryPrivate) (hrec : d.recovered = false) :
    ∀ (i : Nat) (info1 : Info), (accept env fs d).1.recoveryInfo[i]? = some info1 →
      (info1.status = .Failure →
        ∀ name, (i, Action.newDocument name) ∈ (accept env fs d).2.2 → name ≠ "" →
          (i, Action.closeDocument name) ∈ (accept env fs d).2.2) ∧
      (info1.status = .Success →
        ∀ name, (i, Action.closeDocument name) ∉ (accept env fs d).2.2) := by
  intro i info1 hi
  obtain ⟨hlen, hget⟩ := acceptLoop_getElem? env d.recoveryInfo 0 fs
  have hacc1 : (accept env fs d).1.recoveryInfo = (acceptLoop env d.recoveryInfo 0 fs).1 := by
    simp [accept, hrec]
  have hacc2 : (accept env fs d).2.2 = (acceptLoop env d.recoveryInfo 0 fs).2.2 := by
    simp [accept, hrec]
  rw [hacc1] at hi
  rw [hacc2]
  have hlt : i < d.recoveryInfo.length := by
    rw [← hlen]; exact (List.getElem?_eq_some_iff.1 hi).1
  obtain ⟨fs1, h1, h2⟩ := hget i d.recoveryInfo[i] (List.getElem?_eq_getElem hlt)
  rw [h1] at hi
  have hinfo := Option.some.inj hi
  obtain ⟨hf, hs⟩ := acceptEntry_close env fs1 (0 + i) d.recoveryInfo[i]
  rw [hinfo] at hf hs
  simp only [Nat.zero_add] at h2 hf hs
  refine ⟨?_, ?_⟩
  · intro hst name hnew hne
    exact (h2 _).2 (hf hst name ((h2 _).1 hnew) hne)
  · intro hst name hcl
    exact hs hst name ((h2 _).1 hcl)

/-- C9, at a dialog with two entries, the first of which fails to restore
after its document `Unnamed` was created: that document is closed, and
nothing is closed for the second entry. -/
theorem accept_closes_failed_documents_witness :
    exampleDialog.recovered = false ∧
    (0, Action.closeDocument "Unnamed")
      ∈ (accept (exampleEnv exampleAttempt) exampleFileSys exampleDialog).2.2 ∧
    ∀ name, (1, Action.closeDocument name)
      ∉ (accept (exampleEnv exampleAttempt) exampleFileSys exampleDialog).2.2 := by
  have h := accept_closes_failed_documents (exampleEnv exampleAttempt) exampleFileSys
    exampleDialog rfl
  refine ⟨rfl, ?_, ?_⟩
  · exact (h 0 { exampleInfo "/tmp/a" with status := .Failure } (by decide)).1 rfl "Unnamed"
      (by decide) (by decide)
  · exact (h 1 { exampleInfo "/tmp/b" with status := .Success } (by decide)).2 rfl

/-- C10.  For each status `s` other than `Unknown`, a meta file whose `Status`
element has the text that `writeRecoveryInfo` writes for `s` gives the entry,
which has status `Created` at that point of `getRecoveryInfo`, the status `s`
again (before the modification dates are compared). -/
theorem status_text_round_trip (s : Status) (hs : s ≠ .Unknown) (cfg : XmlConfig)
    (info : Info) (hinfo : info.status = .Created)
    (hcfg : cfg.lookup "Status" = some (statusText s)) :
    (infoFromConfig cfg info).status = s := by
  have hc : cfg.contains "Status" = true := by simp [XmlConfig.contains, hcfg]
  have hv : cfg.value "Status" = statusText s := by simp [XmlConfig.value, hcfg]
  have hst : ∀ st : Status, st = .Created → statusFromConfig cfg st = s := by
    intro st hst
    unfold statusFromConfig
    rw [if_pos hc, hv, hst]
    cases s with
    | Unknown => exact absurd rfl hs
    | Created => decide
    | Overage => decide
    | Success => decide
    | Failure => decide
  unfold infoFromConfig
  apply hst
  by_cases h1 : cfg.contains "Label" = true <;> by_cases h2 : cfg.contains "FileName" = true <;>
    simp [h1, h2, hinfo]

/-- C10, at the status `Overage`, written as `Deprecated`. -/
theorem status_text_round_trip_witness :
    Status.Overage ≠ Status.Unknown ∧ (exampleInfo "/tmp/a").status = .Created ∧
    List.lookup "Status" [("Status", "Deprecated"), ("Label", "Part"), ("FileName", "")]
      = some (statusText .Overage) ∧
    (infoFromConfig [("Status", "Deprecated"), ("Label", "Part"), ("FileName", "")]
      (exampleInfo "/tmp/a")).status = .Overage :=
  ⟨by decide, rfl, by decide,
    status_text_round_trip .Overage (by decide)
      [("Status", "Deprecated"), ("Label", "Part"), ("FileName", "")] (exampleInfo "/tmp/a")
      rfl (by decide)⟩

/-! ## getRecoveryInfo -/

theorem value_of_not_contains (cfg : XmlConfig) (key : String)
    (h : cfg.contains key = false) : cfg.value key = "" := by
  unfold XmlConfig.contains at h
  unfold XmlConfig.value
  cases hl : List.lookup key cfg with
  | none => rfl
  | some v => rw [hl] at h; simp at h

theorem infoFromConfig_status (cfg : XmlConfig) (info : Info) :
    (infoFromConfig cfg info).status = statusFromConfig cfg info.status := by
  unfold infoFromConfig
  by_cases h1 : cfg.contains "Label" = true <;> by_cases h2 : cfg.contains "FileName" = true <;>
    simp [h1, h2]

theorem infoFromConfig_fileName (cfg : XmlConfig) (info : Info) (h : info.fileName = "") :
    (infoFromConfig cfg info).fileName = cfg.value "FileName" := by
  unfold infoFromConfig
  by_cases h2 : cfg.contains "FileName" = true
  · by_cases h1 : cfg.contains "Label" = true <;> simp [h1, h2]
  · have hv := value_of_not_contains cfg "FileName" (by simpa using h2)
    by_cases h1 : cfg.contains "Label" = true <;> simp [h1, h2, h, hv]

theorem infoFromConfig_xmlFile (cfg : XmlConfig) (info : Info) :
    (infoFromConfig cfg info).xmlFile = info.xmlFile := by
  unfold infoFromConfig
  by_cases h1 : cfg.contains "Label" = true <;> by_cases h2 : cfg.contains "FileName" = true <;>
    simp [h1, h2]

theorem statusFromConfig_of_other_text (cfg : XmlConfig) (status : Status)
    (hD : cfg.value "Status" ≠ "Deprecated") (hS : cfg.value "Status" ≠ "Success")
    (hF : cfg.value "Status" ≠ "Failure") : statusFromConfig cfg status = status := by
  unfold statusFromConfig
  simp [hD, hS, hF]

theorem getRecoveryInfo_of_files (env : Env) (fs : FileSys) (fi : QFileInfo)
    (hrec : fs.fileExists (recoveryFilePath fi.absoluteFilePath) = true)
    (hxml : fs.fileExists (metaFilePath fi.absoluteFilePath) = true) :
    getRecoveryInfo env fs fi
      = compareDates fs (recoveryFilePath fi.absoluteFilePath)
          (infoFromConfig (readXmlFile env fs (metaFilePath fi.absoluteFilePath))
            { projectFile := recoveryFilePath fi.absoluteFilePath
              xmlFile := metaFilePath fi.absoluteFilePath
              label := env.unnamed, fileName := "", tooltip := fi.fileName
              status := .Created }) := by
  unfold recoveryFilePath metaFilePath at *
  unfold getRecoveryInfo
  simp only [hrec, hxml, if_true]

theorem writeRecoveryInfo_file_self (fs : FileSys) (info : Info)
    (hw : fs.writable info.xmlFile = true) :
    (writeRecoveryInfo fs info).file info.xmlFile
      = some ⟨recoveryInfoText info, fs.now⟩ := by
  unfold writeRecoveryInfo
  simp [hw]

theorem writeRecoveryInfo_file_of_ne (fs : FileSys) (info : Info) (path : String)
    (h : path ≠ info.xmlFile) : (writeRecoveryInfo fs info).file path = fs.file path := by
  unfold writeRecoveryInfo
  by_cases hw : fs.writable info.xmlFile = true
  · simp [hw, h]
  · simp [hw]

theorem compareDates_overage (fs : FileSys) (file : String) (info : Info)
    (h0 : info.status = .Created)
    (h1 : info.fileName ≠ "" ∧ fs.fileExists info.fileName = true)
    (h2 : fs.lastModified file < fs.lastModified info.fileName) :
    compareDates fs file info
      = ({ info with status := .Overage }, writeRecoveryInfo fs { info with status := .Overage }) := by
  unfold compareDates
  rw [if_pos h0, if_pos h1, if_pos h2]

theorem compareDates_unchanged (fs : FileSys) (file : String) (info : Info)
    (h : ¬ (info.status = .Created ∧ (info.fileName ≠ "" ∧ fs.fileExists info.fileName = true) ∧
      fs.lastModified file < fs.lastModified info.fileName)) :
    compareDates fs file info = (info, fs) := by
  unfold compareDates
  by_cases h0 : info.status = .Created
  · by_cases h1 : info.fileName ≠ "" ∧ fs.fileExists info.fileName = true
    · by_cases h2 : fs.lastModified file < fs.lastModified info.fileName
      · exact absurd ⟨h0, h1, h2⟩ h
      · rw [if_pos h0, if_pos h1, if_neg h2]
    · rw [if_pos h0, if_neg h1]
  · rw [if_neg h0]

/-- C12, the claim as stated fails.  The directory `/tmp/a` holds the recovery
file (time 5) and a meta file with status `Created` that names the project
file `/home/u/part.fcstd` (time 7); no file can be opened for writing.
`getRecoveryInfo` returns the status `Overage`, but the entry is not written
back: the meta file is unchanged and still reads `Created`. -/
theorem unwritable_overage_not_written_back :
    (exampleProjectFileSys false).fileExists (recoveryFilePath "/tmp/a") = true ∧
    (exampleProjectFileSys false).fileExists (metaFilePath "/tmp/a") = true ∧
    (readXmlFile exampleReadingEnv (exampleProjectFileSys false)
      (metaFilePath "/tmp/a")).value "Status" = "Created" ∧
    (getRecoveryInfo exampleReadingEnv (exampleProjectFileSys false) ⟨"/tmp/a", "a"⟩).1
      = exampleProjectInfo .Overage ∧
    (getRecoveryInfo exampleReadingEnv (exampleProjectFileSys false) ⟨"/tmp/a", "a"⟩).2.file
        (metaFilePath "/tmp/a")
      = some ⟨recoveryInfoText (exampleProjectInfo .Created), 5⟩ ∧
    (readXmlFile exampleReadingEnv
      (getRecoveryInfo exampleReadingEnv (exampleProjectFileSys false) ⟨"/tmp/a", "a"⟩).2
      (metaFilePath "/tmp/a")).value "Status" = "Created" := by
  set_option maxRecDepth 100000 in
  decide

/-- C12, amended.  Let the directory contain the recovery file and the meta
file, and let the `Status` text that `readXmlFile` returns for the meta file
be none of `Deprecated`, `Success`, `Failure`.  Then the status returned by
`getRecoveryInfo` is `Overage` if and only if the `FileName` read from the
meta file is not empty, a file of that name exists, and the recovery file was
last modified strictly before it; in every other case (equal times included)
the status is `Created` and nothing is written.  When the status is `Overage`
and the meta file can be opened for writing, the entry is written back: the
meta file then holds the text with the status `Deprecated` and the label and
file name of the returned entry, and no other file is changed.  When the
status is `Overage` and the meta file cannot be opened for writing, nothing is
written. -/
theorem getRecoveryInfo_overage_rule (env : Env) (fs : FileSys) (fi : QFileInfo)
    (hrec : fs.fileExists (recoveryFilePath fi.absoluteFilePath) = true)
    (hxml : fs.fileExists (metaFilePath fi.absoluteFilePath) = true)
    (hD : (readXmlFile env fs (metaFilePath fi.absoluteFilePath)).value "Status" ≠ "Deprecated")
    (hS : (readXmlFile env fs (metaFilePath fi.absoluteFilePath)).value "Status" ≠ "Success")
    (hF : (readXmlFile env fs (metaFilePath fi.absoluteFilePath)).value "Status" ≠ "Failure") :
    ((getRecoveryInfo env fs fi).1.status = .Overage ↔
      ((readXmlFile env fs (metaFilePath fi.absoluteFilePath)).value "FileName" ≠ "" ∧
       fs.fileExists
         ((readXmlFile env fs (metaFilePath fi.absoluteFilePath)).value "FileName") = true ∧
       fs.lastModified (recoveryFilePath fi.absoluteFilePath)
         < fs.lastModified
             ((readXmlFile env fs (metaFilePath fi.absoluteFilePath)).value "FileName"))) ∧
    ((getRecoveryInfo env fs fi).1.status ≠ .Overage →
      (getRecoveryInfo env fs fi).1.status = .Created ∧ (getRecoveryInfo env fs fi).2 = fs) ∧
    ((getRecoveryInfo env fs fi).1.status = .Overage →
      fs.writable (metaFilePath fi.absoluteFilePath) = true →
      (getRecoveryInfo env fs fi).2.file (metaFilePath fi.absoluteFilePath)
        = some ⟨"<?xml version=\x271.0\x27 encoding=\x27utf-8\x27?>" ++ "\n"
            ++ "<AutoRecovery SchemaVersion=\x221\x22>" ++ "\n"
            ++ "  <Status>" ++ "Deprecated" ++ "</Status>" ++ "\n"
            ++ "  <Label>" ++ (getRecoveryInfo env fs fi).1.label ++ "</Label>" ++ "\n"
            ++ "  <FileName>" ++ (getRecoveryInfo env fs fi).1.fileName ++ "</FileName>" ++ "\n"
            ++ "</AutoRecovery>" ++ "\n", fs.now⟩ ∧
      ∀ path, path ≠ metaFilePath fi.absoluteFilePath →
        (getRecoveryInfo env fs fi).2.file path = fs.file path) ∧
    ((getRecoveryInfo env fs fi).1.status = .Overage →
      fs.writable (metaFilePath fi.absoluteFilePath) = false →
      (getRecoveryInfo env fs fi).2 = fs) := by
  obtain ⟨info, hinfo⟩ : ∃ info, infoFromConfig
      (readXmlFile env fs (metaFilePath fi.absoluteFilePath))
      { projectFile := recoveryFilePath fi.absoluteFilePath
        xmlFile := metaFilePath fi.absoluteFilePath
        label := env.unnamed, fileName := "", tooltip := fi.fileName
        status := .Created } = info := ⟨_, rfl⟩
  have hgr : getRecoveryInfo env fs fi
      = compareDates fs (recoveryFilePath fi.absoluteFilePath) info := by
    rw [getRecoveryInfo_of_files env fs fi hrec hxml, hinfo]
  have hst : info.status = .Created := by
    rw [← hinfo, infoFromConfig_status]
    exact statusFromConfig_of_other_text _ _ hD hS hF
  have hfn : info.fileName
      = (readXmlFile env fs (metaFilePath fi.absoluteFilePath)).value "FileName" := by
    rw [← hinfo]; exact infoFromConfig_fileName _ _ rfl
  have hx : info.xmlFile = metaFilePath fi.absoluteFilePath := by
    rw [← hinfo, infoFromConfig_xmlFile]
  rw [← hfn]
  by_cases h : (info.fileName ≠ "" ∧ fs.fileExists info.fileName = true) ∧
      fs.lastModified (recoveryFilePath fi.absoluteFilePath) < fs.lastModified info.fileName
  · rw [hgr, compareDates_overage fs _ info hst h.1 h.2]
    refine ⟨⟨fun _ => ⟨h.1.1, h.1.2, h.2⟩, fun _ => rfl⟩, fun hne => absurd rfl hne,
      fun _ hw => ?_, fun _ hw => ?_⟩
    · have hw1 : fs.writable info.xmlFile = true := by rw [hx]; exact hw
      refine ⟨?_, ?_⟩
      · have h5 : (writeRecoveryInfo fs { info with status := .Overage }).file info.xmlFile
            = some ⟨recoveryInfoText { info with status := .Overage }, fs.now⟩ :=
          writeRecoveryInfo_file_self fs _ hw1
        rw [← hx]
        exact h5
      · intro path hp
        exact writeRecoveryInfo_file_of_ne fs _ path (by rw [hx]; exact hp)
    · have hw1 : fs.writable info.xmlFile = false := by rw [hx]; exact hw
      unfold writeRecoveryInfo
      simp [hw1]
  · rw [hgr, compareDates_unchanged fs _ info (fun hc => h hc.2)]
    refine ⟨⟨fun ho => ?_, fun hc => absurd ⟨⟨hc.1, hc.2.1⟩, hc.2.2⟩ h⟩, fun _ => ⟨hst, rfl⟩,
      fun ho => ?_, fun _ _ => rfl⟩
    · rw [hst] at ho; exact absurd ho (by decide)
    · rw [hst] at ho; exact absurd ho (by decide)

/-- C12, amended, at the directory `/tmp/a` whose meta file names the project
file `/home/u/part.fcstd`: the recovery file (time 5) is older than the
project file (time 7), so the status is `Overage`, and the meta file, which
can be opened for writing, holds the entry with the status `Deprecated`
afterwards. -/
theorem getRecoveryInfo_overage_rule_witness :
    (exampleProjectFileSys true).fileExists (recoveryFilePath "/tmp/a") = true ∧
    (exampleProjectFileSys true).fileExists (metaFilePath "/tmp/a") = true ∧
    (readXmlFile exampleReadingEnv (exampleProjectFileSys true)
      (metaFilePath "/tmp/a")).value "Status" = "Created" ∧
    (getRecoveryInfo exampleReadingEnv (exampleProjectFileSys true) ⟨"/tmp/a", "a"⟩).1.status
      = .Overage ∧
    (getRecoveryInfo exampleReadingEnv (exampleProjectFileSys true) ⟨"/tmp/a", "a"⟩).2.file
        (metaFilePath "/tmp/a")
      = some ⟨recoveryInfoText (exampleProjectInfo .Overage), 10⟩ := by
  set_option maxRecDepth 100000 in
  have hval : (readXmlFile exampleReadingEnv (exampleProjectFileSys true)
      (metaFilePath "/tmp/a")).value "Status" = "Created" := by decide
  have hname : (readXmlFile exampleReadingEnv (exampleProjectFileSys true)
      (metaFilePath "/tmp/a")).value "FileName" = "/home/u/part.fcstd" := by decide
  have h := getRecoveryInfo_overage_rule exampleReadingEnv (exampleProjectFileSys true)
    ⟨"/tmp/a", "a"⟩ (by decide) (by decide) (by rw [hval]; decide) (by rw [hval]; decide)
    (by rw [hval]; decide)
  have hov : (getRecoveryInfo exampleReadingEnv (exampleProjectFileSys true)
      ⟨"/tmp/a", "a"⟩).1.status = .Overage :=
    h.1.2 (by rw [hname]; exact ⟨by decide, by decide, by decide⟩)
  refine ⟨by decide, by decide, hval, hov, ?_⟩
  rw [(h.2.2.1 hov rfl).1]
  decide

/-! ## A processed recovery file -/

theorem getRecoveryInfo_cases (env : Env) (fs : FileSys) (fi : QFileInfo) :
    ((getRecoveryInfo env fs fi).1.status = .Overage ∧
      statusFromConfig (readXmlFile env fs (metaFilePath fi.absoluteFilePath)) .Created
        = .Created ∧
      (getRecoveryInfo env fs fi).1.xmlFile = metaFilePath fi.absoluteFilePath ∧
      (getRecoveryInfo env fs fi).2 = writeRecoveryInfo fs (getRecoveryInfo env fs fi).1) ∨
    ((getRecoveryInfo env fs fi).2 = fs ∧
      ((getRecoveryInfo env fs fi).1.status = .Created →
        (getRecoveryInfo env fs fi).1.xmlFile = metaFilePath fi.absoluteFilePath) ∧
      ((getRecoveryInfo env fs fi).1.status = .Overage →
        statusFromConfig (readXmlFile env fs (metaFilePath fi.absoluteFilePath)) .Created
          ≠ .Created) ∧
      (fs.fileExists (recoveryFilePath fi.absoluteFilePath) = true →
        (getRecoveryInfo env fs fi).1.status ≠ .Created →
        MarkedPath env fs (metaFilePath fi.absoluteFilePath))) := by
  by_cases hrec : fs.fileExists (recoveryFilePath fi.absoluteFilePath) = true
  · by_cases hxml : fs.fileExists (metaFilePath fi.absoluteFilePath) = true
    · obtain ⟨info, hinfo⟩ : ∃ info, infoFromConfig
          (readXmlFile env fs (metaFilePath fi.absoluteFilePath))
          { projectFile := recoveryFilePath fi.absoluteFilePath
            xmlFile := metaFilePath fi.absoluteFilePath
            label := env.unnamed, fileName := "", tooltip := fi.fileName
            status := .Created } = info := ⟨_, rfl⟩
      have hgr : getRecoveryInfo env fs fi
          = compareDates fs (recoveryFilePath fi.absoluteFilePath) info := by
        rw [getRecoveryInfo_of_files env fs fi hrec hxml, hinfo]
      have hx : info.xmlFile = metaFilePath fi.absoluteFilePath := by
        rw [← hinfo, infoFromConfig_xmlFile]
      have hst : info.status
          = statusFromConfig (readXmlFile env fs (metaFilePath fi.absoluteFilePath)) .Created := by
        rw [← hinfo, infoFromConfig_status]
      by_cases h : info.status = .Created ∧
          (info.fileName ≠ "" ∧ fs.fileExists info.fileName = true) ∧
          fs.lastModified (recoveryFilePath fi.absoluteFilePath) < fs.lastModified info.fileName
      · rw [hgr, compareDates_overage fs _ info h.1 h.2.1 h.2.2]
        exact Or.inl ⟨rfl, hst ▸ h.1, hx, rfl⟩
      · rw [hgr, compareDates_unchanged fs _ info h]
        refine Or.inr ⟨rfl, fun _ => hx, fun ho => ?_, fun _ hne => ⟨hxml, hst ▸ hne⟩⟩
        rw [← hst, ho]
        decide
    · have hrec1 : fs.fileExists
          (absoluteFilePath fi.absoluteFilePath "fc_recovery_file.fcstd") = true := hrec
      have hxml1 : fs.fileExists
          (absoluteFilePath fi.absoluteFilePath "fc_recovery_file.xml") = false := by
        simpa [metaFilePath] using hxml
      have hres : getRecoveryInfo env fs fi
          = ({ projectFile := recoveryFilePath fi.absoluteFilePath
               xmlFile := metaFilePath fi.absoluteFilePath
               label := env.unnamed, fileName := "", tooltip := fi.fileName
               status := .Created }, fs) := by
        unfold getRecoveryInfo recoveryFilePath metaFilePath
        simp only [hrec1, hxml1, if_true]
        simp
      rw [hres]
      exact Or.inr ⟨rfl, fun _ => rfl, fun ho => by simp at ho, fun _ hne => absurd rfl hne⟩
  · have hrec1 : fs.fileExists
        (absoluteFilePath fi.absoluteFilePath "fc_recovery_file.fcstd") = false := by
      simpa [recoveryFilePath] using hrec
    have hres : getRecoveryInfo env fs fi
        = ({ projectFile := "", xmlFile := "", label := env.unnamed, fileName := "",
             tooltip := "", status := .Unknown }, fs) := by
      unfold getRecoveryInfo
      simp only [hrec1]
      simp
    rw [hres]
    exact Or.inr ⟨rfl, fun h => by simp at h, fun ho => by simp at ho, fun h => absurd h hrec⟩

theorem getRecoveryInfo_fileSys (env : Env) (fs : FileSys) (fi : QFileInfo) :
    (getRecoveryInfo env fs fi).2
      = (getRecoveryInfoWrites env fs fi).foldl writeRecoveryInfo fs := by
  unfold getRecoveryInfoWrites
  rcases getRecoveryInfo_cases env fs fi with ⟨h1, h2, _, h4⟩ | ⟨h1, _, h3, _⟩
  · rw [if_pos ⟨h1, h2⟩]
    exact h4
  · by_cases ho : (getRecoveryInfo env fs fi).1.status = .Overage
    · rw [if_neg (fun hc => h3 ho hc.2)]
      exact h1
    · rw [if_neg (fun hc => ho hc.1)]
      exact h1

end Gui.Dialog
